import Mathlib

/-!
Verification development for the resumeai-pro core optimization pipeline
(src/backend/optimizer.py, src/backend/jd_analyzer.py, src/backend/skills_db.py).

The Python code is shallowly embedded:
* Python `str` is modeled as Lean `String` (a wrapper over `List Char` in this
  toolchain).  Text handling (`lower`, `strip`, `split`, substring tests) is
  embedded for the ASCII range that the repository data uses.
* Python machine integers are modeled as `Nat`; the ATS score expression
  `int(len(matched)/len(jd) * W)` (float division then truncation toward zero
  of a non-negative value) is modeled as the exact rational floor
  `matched * W / jd` in `Nat` division.
* `random.choice(pool)` is modeled by an explicit selection oracle passed as a
  parameter; every theorem quantifies over the oracle.
* Python regular expressions used by the embedded functions are compiled by
  hand into equivalent scanning functions, with leftmost-match, alternation
  order and greediness spelled out at each use site.
-/

set_option maxRecDepth 8000
set_option linter.unusedVariables false

/-- Lowercase an ASCII character, as Python `str.lower` does on ASCII text. -/
def pyLowerChar (c : Char) : Char :=
  if 65 ≤ c.toNat ∧ c.toNat ≤ 90 then Char.ofNat (c.toNat + 32) else c

/-- Python `s.lower()` on the ASCII range. -/
def pyLower (s : String) : String := ⟨s.data.map pyLowerChar⟩

/-- Python whitespace characters (the set stripped by `str.strip()`). -/
def pyWSChar (c : Char) : Bool :=
  c = ' ' ∨ c = '\t' ∨ c = '\n' ∨ c = '\r' ∨ c.toNat = 11 ∨ c.toNat = 12

/-- Drop leading characters belonging to a character set, as the leading half
of Python `str.strip(chars)`. -/
def dropWhileIn (cs : List Char) (l : List Char) : List Char :=
  l.dropWhile (fun c => cs.contains c)

/-- Python `s.strip()` on a character list. -/
def pyStripL (l : List Char) : List Char :=
  ((l.dropWhile pyWSChar).reverse.dropWhile pyWSChar).reverse

/-- Python `s.strip()`. -/
def pyStrip (s : String) : String := ⟨pyStripL s.data⟩

/-- Python `s.rstrip()` (strip trailing whitespace only). -/
def pyRStrip (s : String) : String := ⟨(s.data.reverse.dropWhile pyWSChar).reverse⟩

/-- Python `s.strip(chars)` for an explicit character set. -/
def pyStripSet (cs : List Char) (s : String) : String :=
  ⟨(dropWhileIn cs (dropWhileIn cs s.data).reverse).reverse⟩

/-- Python `s.rstrip(chars)` for an explicit character set. -/
def pyRStripSet (cs : List Char) (s : String) : String :=
  ⟨(dropWhileIn cs s.data.reverse).reverse⟩

/-- Python substring test `needle in hay` on character lists. -/
def pyInL (needle : List Char) : List Char → Bool
  | [] => needle.isEmpty
  | c :: rest => needle.isPrefixOf (c :: rest) || pyInL needle rest

/-- Python substring test `needle in hay` for strings. -/
def pyIn (needle hay : String) : Bool := pyInL needle.data hay.data

/-- Python `s.endswith(t)` specialized to a single-character suffix. -/
def endsWithChar (s : String) (c : Char) : Bool := s.data.getLast? == some c

/-- Python `s[:-1]` (drop the final character; empty stays empty). -/
def dropLastChar (s : String) : String := ⟨s.data.dropLast⟩

/-- Is a character an ASCII regex word character (`\w` over ASCII)? -/
def isWordChar (c : Char) : Bool :=
  c.isAlpha || c.isDigit || c = '_'

/-- Word-character test on an optional character (out of range counts as
non-word). -/
def isWordCharAt (l : List Char) (i : Nat) : Bool :=
  match l.get? i with
  | some c => isWordChar c
  | none => false

/-- Regex `\b` at position `i` of `l`: the two sides of the position disagree
about being a word character. -/
def boundaryAt (l : List Char) (i : Nat) : Bool :=
  let left := if i = 0 then false else isWordCharAt l (i - 1)
  left != isWordCharAt l i

/-- Regex search for `\b<pat>\b` (pattern taken literally): some position has a
word boundary, the literal pattern, and a word boundary after it. -/
def wholeWordSearch (pat : List Char) (hay : List Char) : Bool :=
  (List.range (hay.length + 1)).any fun i =>
    boundaryAt hay i && pat.isPrefixOf (hay.drop i) && boundaryAt hay (i + pat.length)

/-- Regex search for `\b<pat>` (word boundary before a literal pattern only),
as used by `insert_keyword_naturally`. -/
def boundedStartSearch (pat : List Char) (hay : List Char) : Bool :=
  (List.range (hay.length + 1)).any fun i =>
    boundaryAt hay i && pat.isPrefixOf (hay.drop i)

/-! ## Keyword insertion engine (optimizer.py, is_contextually_relevant /
insert_keyword_naturally) -/

/-- Trigger terms classifying a bullet as frontend work. -/
def frontendTerms : List String :=
  ["frontend", "front-end", "ui", "react", "angular", "vue", "css", "html", "browser"]

/-- Trigger terms classifying a bullet as backend work. -/
def backendTerms : List String :=
  ["api", "backend", "back-end", "server", "endpoint", "microservice",
   "python", "node", "flask", "django", "fastapi", "express", "spring"]

/-- Trigger terms classifying a bullet as data work. -/
def dataTerms : List String :=
  ["database", "data", "query", "sql", "schema", "table", "index",
   "postgresql", "mysql", "mongodb", "redis", "cache", "store"]

/-- Trigger terms classifying a bullet as devops work. -/
def devopsTerms : List String :=
  ["deploy", "pipeline", "ci", "cd", "docker", "kubernetes", "container",
   "infrastructure", "cloud", "aws", "azure", "gcp", "server", "host",
   "terraform", "helm", "jenkins", "github actions"]

/-- Trigger terms classifying a bullet as generically technical. -/
def techTerms : List String :=
  ["develop", "built", "implemented", "created", "designed", "engineered",
   "architected", "leveraged", "utilized", "configured", "integrated"]

/-- Cloud and infrastructure keywords, gated to devops bullets. -/
def infraKws : List String :=
  ["aws", "azure", "gcp", "ec2", "s3", "lambda", "kubernetes", "k8s",
   "terraform", "helm", "nginx", "ansible", "fargate", "ecs", "eks"]

/-- CI/CD tool keywords. -/
def cicdKws : List String :=
  ["ci/cd", "github actions", "jenkins", "gitlab ci", "circleci"]

/-- Database product keywords, gated to data bullets. -/
def dbKws : List String :=
  ["postgresql", "mysql", "mongodb", "redis", "elasticsearch", "sqlite",
   "oracle", "cassandra", "dynamodb", "influxdb", "mariadb", "couchdb"]

/-- Frontend framework keywords. -/
def frontendKws : List String :=
  ["react", "angular", "vue", "svelte", "next.js", "nuxt.js",
   "tailwind", "bootstrap", "css", "html", "typescript"]

/-- Backend framework keywords. -/
def backendKws : List String :=
  ["fastapi", "django", "flask", "spring", "express", "nestjs", "gin",
   "graphql", "grpc", "rest"]

/-- Language keywords with their per-language trigger sets. -/
def langKws : List (String × List String) :=
  [("python", ["python", "flask", "django", "fastapi"]),
   ("javascript", ["javascript", "node", "react", "express", "js"]),
   ("typescript", ["typescript", "react", "angular", "nestjs", "ts"]),
   ("java", ["java", "spring", "maven", "gradle"]),
   ("go", ["golang", "go ", "gin", "fiber"])]

/-- optimizer.is_contextually_relevant: decides whether inserting `keyword`
into `bullet` makes semantic sense, by domain-bucket classification. -/
def is_contextually_relevant (keyword bullet : String) : Bool :=
  let kw_lower := pyLower keyword
  let bullet_lower := pyLower bullet
  if pyIn kw_lower bullet_lower then false
  else
    let bullet_is_frontend := frontendTerms.any fun t => pyIn t bullet_lower
    let bullet_is_backend := backendTerms.any fun t => pyIn t bullet_lower
    let bullet_is_data := dataTerms.any fun t => pyIn t bullet_lower
    let bullet_is_devops := devopsTerms.any fun t => pyIn t bullet_lower
    let bullet_is_tech := techTerms.any fun t => pyIn t bullet_lower
    if infraKws.contains kw_lower then bullet_is_devops
    else if cicdKws.contains kw_lower then
      bullet_is_devops || pyIn ("pipeline") bullet_lower || pyIn ("automat") bullet_lower
    else if dbKws.contains kw_lower then bullet_is_data
    else if frontendKws.contains kw_lower then
      bullet_is_frontend || (bullet_is_tech && !bullet_is_data && !bullet_is_devops)
    else if backendKws.contains kw_lower then
      bullet_is_backend || (bullet_is_tech && !bullet_is_data && !bullet_is_devops)
    else
      match langKws.find? (fun p => p.1 == kw_lower) with
      | some p => p.2.any fun t => pyIn t bullet_lower
      | none => bullet_is_tech && decide (keyword.length > 3)

/-- Verbs that select the ", leveraging kw" insertion style. -/
def buildStyleVerbs : List String :=
  ["developed", "built", "implemented", "created", "designed", "engineered", "architected"]

/-- Verbs that select the " with kw" insertion style. -/
def improveStyleVerbs : List String :=
  ["optimized", "improved", "enhanced", "streamlined"]

/-- Verbs that select the " on kw" / " using kw" insertion style. -/
def deployStyleVerbs : List String :=
  ["deployed", "configured", "containerized", "migrated"]

/-- Cloud platform names that take the preposition "on". -/
def cloudPlatformNames : List String := ["aws", "azure", "gcp", "eks", "gke"]

/-- optimizer.insert_keyword_naturally: inserts a JD keyword into a bullet when
the relevance gate passes and the bullet shows one of three verb classes.  The
three pattern blocks fall through in source order. -/
def insert_keyword_naturally (bullet keyword : String) : String :=
  if pyIn (pyLower keyword) (pyLower bullet) then bullet
  else if !(is_contextually_relevant keyword bullet) then bullet
  else
    let bullet_lower := pyLower bullet
    let deployBlock : String :=
      if deployStyleVerbs.any (fun w => pyIn w bullet_lower) then
        let prep : String := if cloudPlatformNames.contains (pyLower keyword) then "on" else "using"
        if endsWithChar (pyRStrip bullet) '.' then
          dropLastChar bullet ++ " " ++ prep ++ " " ++ keyword ++ "."
        else bullet ++ " " ++ prep ++ " " ++ keyword
      else bullet
    let improveBlock : String :=
      if improveStyleVerbs.any (fun w => pyIn w bullet_lower) then
        if endsWithChar (pyRStrip bullet) '.' then
          dropLastChar bullet ++ " with " ++ keyword ++ "."
        else bullet ++ " with " ++ keyword
      else deployBlock
    if buildStyleVerbs.any (fun w => pyIn w bullet_lower) then
      if !(boundedStartSearch (pyLower keyword).data bullet_lower.data) then
        if endsWithChar (pyRStrip bullet) '.' then
          dropLastChar bullet ++ ", leveraging " ++ keyword ++ "."
        else bullet ++ ", leveraging " ++ keyword
      else improveBlock
    else improveBlock

/-! ## Static skills taxonomy (skills_db.py) -/

/-- skills_db.SKILLS_DB: category name to ordered skill list, in the source
dictionary order. -/
def SKILLS_DB : List (String × List String) :=
  [("programming_languages",
    ["python", "javascript", "typescript", "java", "c++", "c#", "c", "go", "golang",
     "rust", "swift", "kotlin", "ruby", "php", "scala", "r", "matlab", "perl",
     "shell", "bash", "powershell", "lua", "dart", "elixir", "haskell", "clojure",
     "groovy", "objective-c", "vba", "cobol", "fortran", "assembly", "solidity"]),
   ("web_frontend",
    ["react", "react.js", "reactjs", "angular", "angularjs", "vue", "vue.js", "vuejs",
     "next.js", "nextjs", "nuxt.js", "svelte", "ember.js", "backbone.js", "jquery",
     "html", "html5", "css", "css3", "sass", "scss", "less", "tailwind", "tailwindcss",
     "bootstrap", "material-ui", "mui", "chakra ui", "ant design", "styled-components",
     "webpack", "vite", "babel", "parcel", "rollup", "redux", "zustand", "mobx",
     "react query", "graphql client", "apollo client", "axios", "fetch api",
     "typescript", "eslint", "prettier", "jest", "cypress", "playwright", "storybook"]),
   ("web_backend",
    ["node.js", "nodejs", "express", "express.js", "fastapi", "flask", "django",
     "spring", "spring boot", "laravel", "rails", "ruby on rails", "asp.net",
     ".net core", "nestjs", "nest.js", "koa", "hapi", "fastify", "gin", "fiber",
     "echo", "actix", "rocket", "phoenix", "elixir phoenix", "graphql", "rest api",
     "restful api", "grpc", "websocket", "oauth", "jwt", "swagger", "openapi"]),
   ("databases",
    ["sql", "mysql", "postgresql", "postgres", "sqlite", "oracle", "sql server",
     "mssql", "mongodb", "mongoose", "redis", "elasticsearch", "cassandra",
     "dynamodb", "firebase", "firestore", "couchdb", "neo4j", "influxdb",
     "timescaledb", "mariadb", "cockroachdb", "supabase", "planetscale",
     "prisma", "sequelize", "typeorm", "sqlalchemy", "hibernate", "knex"]),
   ("cloud_devops",
    ["aws", "amazon web services", "azure", "microsoft azure", "gcp",
     "google cloud", "google cloud platform", "docker", "kubernetes", "k8s",
     "terraform", "ansible", "puppet", "chef", "jenkins", "ci/cd", "github actions",
     "gitlab ci", "circleci", "travis ci", "helm", "istio", "prometheus", "grafana",
     "elk stack", "elasticsearch", "logstash", "kibana", "nginx", "apache",
     "linux", "unix", "bash scripting", "devops", "sre", "site reliability",
     "ec2", "s3", "lambda", "cloudfront", "rds", "vpc", "iam", "route53",
     "azure devops", "azure functions", "gke", "aks", "eks", "fargate",
     "serverless", "microservices", "service mesh", "load balancing",
     "auto scaling", "cdn", "cloudwatch", "datadog", "new relic", "splunk"]),
   ("data_science_ml",
    ["machine learning", "ml", "deep learning", "neural networks", "nlp",
     "natural language processing", "computer vision", "tensorflow", "pytorch",
     "keras", "scikit-learn", "sklearn", "pandas", "numpy", "scipy", "matplotlib",
     "seaborn", "plotly", "jupyter", "data analysis", "data science", "statistics",
     "regression", "classification", "clustering", "random forest", "xgboost",
     "gradient boosting", "svm", "support vector machine", "cnn", "rnn", "lstm",
     "transformer", "bert", "gpt", "hugging face", "mlflow", "kubeflow",
     "airflow", "spark", "pyspark", "hadoop", "hive", "data pipeline",
     "feature engineering", "model deployment", "a/b testing", "hypothesis testing",
     "sql analytics", "power bi", "tableau", "looker", "data studio", "dbt"]),
   ("mobile",
    ["ios", "android", "react native", "flutter", "swift", "kotlin", "xcode",
     "android studio", "mobile development", "app development", "pwa",
     "ionic", "xamarin", "cordova", "phonegap", "expo", "dart",
     "push notifications", "firebase", "app store", "play store"]),
   ("cybersecurity",
    ["cybersecurity", "security", "penetration testing", "pen testing", "ethical hacking",
     "vulnerability assessment", "siem", "soc", "firewall", "ips", "ids",
     "encryption", "ssl/tls", "pki", "identity management", "iam", "sso",
     "oauth", "zero trust", "owasp", "compliance", "gdpr", "hipaa", "sox",
     "iso 27001", "nist", "threat modeling", "incident response", "forensics",
     "burp suite", "metasploit", "nmap", "wireshark", "kali linux"]),
   ("project_management",
    ["agile", "scrum", "kanban", "jira", "confluence", "trello", "asana",
     "project management", "product management", "product owner", "scrum master",
     "sprint planning", "roadmap", "stakeholder management", "cross-functional",
     "waterfall", "pmp", "prince2", "risk management", "budget management",
     "resource planning", "pert", "gantt chart", "microsoft project",
     "monday.com", "basecamp", "notion", "linear"]),
   ("soft_skills",
    ["leadership", "communication", "collaboration", "teamwork", "problem-solving",
     "critical thinking", "analytical", "creative", "innovative", "adaptable",
     "attention to detail", "time management", "mentoring", "coaching",
     "presentation", "public speaking", "negotiation", "conflict resolution",
     "decision making", "strategic thinking", "customer-focused", "results-driven",
     "self-motivated", "proactive", "organized", "detail-oriented", "fast learner",
     "cross-functional collaboration", "stakeholder communication", "client management"]),
   ("finance_business",
    ["financial analysis", "financial modeling", "excel", "vba", "bloomberg",
     "sql", "tableau", "powerbi", "accounting", "gaap", "ifrs", "budgeting",
     "forecasting", "variance analysis", "kpi", "roi", "p&l", "balance sheet",
     "income statement", "cash flow", "valuation", "dcf", "merger", "acquisition",
     "investment banking", "private equity", "hedge fund", "risk management",
     "compliance", "audit", "tax", "erp", "sap", "oracle financials", "quickbooks"]),
   ("design",
    ["figma", "sketch", "adobe xd", "photoshop", "illustrator", "indesign",
     "after effects", "premiere pro", "invision", "zeplin", "framer",
     "ui design", "ux design", "user research", "wireframing", "prototyping",
     "design systems", "accessibility", "usability testing", "a/b testing",
     "visual design", "typography", "color theory", "branding", "motion design"]),
   ("marketing",
    ["seo", "sem", "google ads", "facebook ads", "meta ads", "social media marketing",
     "content marketing", "email marketing", "hubspot", "salesforce", "crm",
     "google analytics", "ga4", "marketing automation", "lead generation",
     "conversion optimization", "cro", "copywriting", "brand strategy",
     "market research", "competitive analysis", "go-to-market", "demand generation"])]

/-- skills_db.STRONG_VERBS: strong action verbs by category, in source order. -/
def STRONG_VERBS : List (String × List String) :=
  [("achievement", ["Achieved", "Delivered", "Exceeded", "Surpassed", "Accomplished", "Attained"]),
   ("leadership", ["Led", "Directed", "Managed", "Oversaw", "Supervised", "Mentored", "Guided"]),
   ("development", ["Developed", "Built", "Engineered", "Architected", "Designed", "Implemented", "Deployed"]),
   ("improvement", ["Optimized", "Enhanced", "Streamlined", "Improved", "Accelerated", "Boosted", "Elevated"]),
   ("creation", ["Created", "Established", "Launched", "Pioneered", "Initiated", "Founded", "Introduced"]),
   ("analysis", ["Analyzed", "Evaluated", "Assessed", "Investigated", "Researched", "Identified", "Diagnosed"]),
   ("collaboration", ["Collaborated", "Partnered", "Coordinated", "Facilitated", "Liaised", "Aligned"]),
   ("growth", ["Grew", "Scaled", "Expanded", "Increased", "Generated", "Drove", "Amplified"]),
   ("reduction", ["Reduced", "Decreased", "Minimized", "Cut", "Eliminated", "Saved", "Lowered"]),
   ("automation", ["Automated", "Integrated", "Migrated", "Modernized", "Digitized", "Transformed"])]

/-- Look up a STRONG_VERBS category (present for every category name used by
the rewriter). -/
def strongVerbPool (cat : String) : List String :=
  match STRONG_VERBS.find? (fun p => p.1 == cat) with
  | some p => p.2
  | none => []

/-- skills_db.WEAK_VERBS: weak opening verbs to replace. -/
def WEAK_VERBS : List String :=
  ["did", "made", "helped", "worked", "was", "had", "got", "put",
   "used", "wrote", "ran", "kept", "gave", "took", "tried", "went",
   "came", "saw", "knew", "thought", "felt", "found", "told", "asked"]

/-! ## Phrase rewriter (optimizer.py, SMART_TRANSFORMS / apply_smart_transform /
replace_weak_verb)

The SMART_TRANSFORMS patterns are anchored regexes (`re.match`, IGNORECASE, no
DOTALL).  They are compiled into token lists for a small backtracking matcher
whose candidate-enumeration order reproduces the regex engine: greedy pieces
try longest first, lazy pieces shortest first, alternations in source order,
`.` never matches a newline, and `$` accepts the end of the string or a
position just before a final trailing newline. -/

/-- Uppercase an ASCII character, as Python `str.upper` does on ASCII text. -/
def pyUpperChar (c : Char) : Char :=
  if 97 ≤ c.toNat ∧ c.toNat ≤ 122 then Char.ofNat (c.toNat - 32) else c

/-- Python `s[0].upper() + s[1:]` (capitalize just the first character). -/
def capFirst (s : String) : String :=
  match s.data with
  | [] => ""
  | c :: cs => ⟨pyUpperChar c :: cs⟩

/-- Length of the maximal prefix satisfying `p`. -/
def countWhile (p : Char → Bool) (l : List Char) : Nat := (l.takeWhile p).length

/-- Consume a case-insensitive literal (pattern given in lowercase); return
the remaining input on success. -/
def dropCILit : List Char → List Char → Option (List Char)
  | [], l => some l
  | _ :: _, [] => none
  | p :: ps, c :: cs => if pyLowerChar c = p then dropCILit ps cs else none

/-- Return the first `some` produced by `f` over the candidate list, in order. -/
def firstSome (f : Nat → Option α) : List Nat → Option α
  | [] => none
  | k :: ks => match f k with
    | some r => some r
    | none => firstSome f ks

/-- Tokens of the anchored-regex sublanguage used by SMART_TRANSFORMS. -/
inductive RTok where
  | lit : List Char → RTok
  | ws1 : RTok
  | capIng : RTok
  | capAlt : List (List Char) → RTok
  | capPlus : RTok
  | capLazy : RTok
  | capStar : RTok
  | endTok : RTok

/-- Candidate lengths `[hi, hi-1, ..., lo]` (empty when `hi < lo`). -/
def descRange (lo hi : Nat) : List Nat :=
  ((List.range' lo (hi + 1 - lo)).reverse)

/-- Candidate lengths `[lo, ..., hi]`. -/
def ascRange (lo hi : Nat) : List Nat :=
  List.range' lo (hi + 1 - lo)

/-- Lowercase every character of a character list. -/
def lowerL (l : List Char) : List Char := l.map pyLowerChar

/-- Does the character list end (case-insensitively) with "ing"? -/
def endsWithIng (l : List Char) : Bool :=
  (lowerL l).reverse.take 3 == ['g', 'n', 'i']

/-- Backtracking matcher for a token list against an input, anchored at the
start (as `re.match` is).  Returns the captured groups in order on success.
The pattern need not consume the whole input. -/
def matchToks : List RTok → List Char → Option (List (List Char))
  | [], _ => some []
  | RTok.lit w :: ts, input =>
    match dropCILit w input with
    | some rest => matchToks ts rest
    | none => none
  | RTok.ws1 :: ts, input =>
    firstSome (fun k => matchToks ts (input.drop k))
      (descRange 1 (countWhile pyWSChar input))
  | RTok.capIng :: ts, input =>
    firstSome
      (fun k =>
        if endsWithIng (input.take k) then
          (matchToks ts (input.drop k)).map fun gs => input.take k :: gs
        else none)
      (descRange 4 (countWhile isWordChar input))
  | RTok.capAlt alts :: ts, input =>
    firstSome
      (fun i =>
        let alt := alts.getD i []
        match dropCILit alt input with
        | some rest => (matchToks ts rest).map fun gs => input.take alt.length :: gs
        | none => none)
      (List.range alts.length)
  | RTok.capPlus :: ts, input =>
    firstSome
      (fun k => (matchToks ts (input.drop k)).map fun gs => input.take k :: gs)
      (descRange 1 (countWhile (fun c => c != '\n') input))
  | RTok.capLazy :: ts, input =>
    firstSome
      (fun k => (matchToks ts (input.drop k)).map fun gs => input.take k :: gs)
      (ascRange 1 (countWhile (fun c => c != '\n') input))
  | RTok.capStar :: ts, input =>
    firstSome
      (fun k => (matchToks ts (input.drop k)).map fun gs => input.take k :: gs)
      (descRange 0 (countWhile (fun c => c != '\n') input))
  | RTok.endTok :: ts, input =>
    if input = [] ∨ input = ['\n'] then matchToks ts input else none

/-- optimizer.ING_TO_PAST: gerund to past-tense verb table. -/
def ING_TO_PAST : List (String × String) :=
  [("building", "Built"), ("developing", "Developed"), ("designing", "Designed"),
   ("implementing", "Implemented"), ("creating", "Created"), ("leading", "Led"),
   ("managing", "Managed"), ("delivering", "Delivered"), ("architecting", "Architected"),
   ("optimizing", "Optimized"), ("maintaining", "Maintained"), ("deploying", "Deployed"),
   ("analyzing", "Analyzed"), ("improving", "Improved"), ("establishing", "Established"),
   ("driving", "Drove"), ("collaborating", "Collaborated"), ("coordinating", "Coordinated"),
   ("mentoring", "Mentored"), ("reviewing", "Reviewed"), ("monitoring", "Monitored"),
   ("automating", "Automated"), ("integrating", "Integrated"), ("migrating", "Migrated"),
   ("launching", "Launched"), ("scaling", "Scaled"), ("supporting", "Supported"),
   ("writing", "Wrote"), ("testing", "Tested"), ("debugging", "Debugged"),
   ("configuring", "Configured"), ("setting", "Set up"), ("working", "Worked on"),
   ("ensuring", "Ensured"), ("overseeing", "Oversaw"), ("handling", "Handled")]

/-- `ING_TO_PAST.get(g, default)`. -/
def ingToPast (g dflt : String) : String :=
  match ING_TO_PAST.find? (fun p => p.1 == g) with
  | some p => p.2
  | none => dflt

/-- Shorthand: a lowercase literal token. -/
def lw (s : String) : RTok := RTok.lit s.data

/-- Shorthand: a capturing literal alternation token. -/
def alt (l : List String) : RTok := RTok.capAlt (l.map String.data)

/-- Group `i` of a match result, as a string ("" when absent). -/
def grp (gs : List String) (i : Nat) : String := gs.getD i ""

/-- optimizer.SMART_TRANSFORMS: the ordered pattern/replacer rule list
(order matters: specific patterns precede general catch-alls). -/
def SMART_TRANSFORMS : List (List RTok × (List String → String)) :=
  [([lw "was", RTok.ws1, lw "responsible", RTok.ws1, lw "for", RTok.ws1, RTok.capIng,
     RTok.ws1, RTok.capPlus],
    fun gs => ingToPast (pyLower (grp gs 0)) ("Managed") ++ " " ++ grp gs 1),
   ([lw "was", RTok.ws1, lw "responsible", RTok.ws1, lw "for", RTok.ws1, RTok.capPlus],
    fun gs => "Managed " ++ grp gs 0),
   ([lw "responsible", RTok.ws1, lw "for", RTok.ws1,
     alt ["building", "developing", "creating", "designing", "implementing",
          "maintaining", "managing", "leading"], RTok.ws1, RTok.capPlus],
    fun gs => ingToPast (pyLower (grp gs 0)) ("Developed") ++ " " ++ grp gs 1),
   ([lw "responsible", RTok.ws1, lw "for", RTok.ws1, RTok.capPlus],
    fun gs => "Managed " ++ grp gs 0),
   ([lw "worked", RTok.ws1, lw "on", RTok.ws1,
     alt ["developing", "building", "creating", "designing", "implementing"],
     RTok.ws1, RTok.capPlus],
    fun gs => ingToPast (pyLower (grp gs 0)) ("Developed") ++ " " ++ grp gs 1),
   ([lw "worked", RTok.ws1, lw "on", RTok.ws1, RTok.capLazy, RTok.ws1,
     alt ["development", "implementation", "testing"], RTok.capStar, RTok.endTok],
    fun gs => "Developed " ++ grp gs 0 ++ grp gs 2),
   ([lw "worked", RTok.ws1, lw "on", RTok.ws1, RTok.capPlus],
    fun gs => "Developed " ++ grp gs 0),
   ([lw "was", RTok.ws1, lw "involved", RTok.ws1, lw "in", RTok.ws1, RTok.capPlus],
    fun gs => "Contributed to " ++ grp gs 0),
   ([lw "was", RTok.ws1, lw "part", RTok.ws1, lw "of", RTok.ws1, RTok.capPlus],
    fun gs => "Served as integral member of " ++ grp gs 0),
   ([lw "was", RTok.ws1, RTok.capPlus],
    fun gs => "Operated as " ++ grp gs 0),
   ([lw "helped", RTok.ws1, lw "with", RTok.ws1, RTok.capPlus],
    fun gs => "Enhanced " ++ grp gs 0),
   ([lw "helped", RTok.ws1, lw "to", RTok.ws1, RTok.capPlus],
    fun gs => "Supported " ++ grp gs 0),
   ([lw "assisted", RTok.ws1, lw "in", RTok.ws1, RTok.capPlus],
    fun gs => "Collaborated on " ++ grp gs 0),
   ([lw "did", RTok.ws1, RTok.capPlus],
    fun gs => "Executed " ++ grp gs 0),
   ([lw "participated", RTok.ws1, lw "in", RTok.ws1, RTok.capPlus],
    fun gs => "Actively contributed to " ++ grp gs 0),
   ([lw "made", RTok.ws1, RTok.capLazy, RTok.ws1,
     alt ["api", "apis", "service", "services", "system", "systems", "pipeline"],
     RTok.capStar, RTok.endTok],
    fun gs => "Engineered " ++ grp gs 0 ++ " " ++ grp gs 1 ++ grp gs 2),
   ([lw "made", RTok.ws1, RTok.capPlus],
    fun gs => "Developed " ++ grp gs 0),
   ([lw "used", RTok.ws1, RTok.capLazy, RTok.ws1, lw "for", RTok.ws1, RTok.capPlus],
    fun gs => "Leveraged " ++ grp gs 0 ++ " for " ++ grp gs 1),
   ([lw "used", RTok.ws1, RTok.capPlus],
    fun gs => "Utilized " ++ grp gs 0),
   ([lw "tried", RTok.ws1, lw "to", RTok.ws1, RTok.capPlus],
    fun gs => "Successfully " ++ grp gs 0)]

/-- Run the rule list in order on the lowercased and original sentence, as
`apply_smart_transform` does (match on the lowercase copy first, then re-apply
the replacer to the original-case match to restore casing). -/
def applyRules : List (List RTok × (List String → String)) → String → String → Option String
  | [], _, _ => none
  | (toks, repl) :: rest, low, orig =>
    match matchToks toks low.data with
    | none => applyRules rest low orig
    | some gsLow =>
      let result := repl (gsLow.map fun l => (⟨l⟩ : String))
      if result = "" then applyRules rest low orig
      else
        match matchToks toks orig.data with
        | some gsOrig =>
          let origResult := repl (gsOrig.map fun l => (⟨l⟩ : String))
          if origResult = "" then some (capFirst result) else some (capFirst origResult)
        | none => some (capFirst result)

/-- optimizer.apply_smart_transform: first matching smart transformation, or
`none` when no pattern applies. -/
def apply_smart_transform (sentence : String) : Option String :=
  let ss := pyStrip sentence
  applyRules SMART_TRANSFORMS (pyLower ss) ss

/-- Leading bullet-glyph characters stripped by `replace_weak_verb`
(the regex class `[•\-–●\*·▪\s]`). -/
def bulletGlyph (c : Char) : Bool :=
  c = '•' || c = '-' || c = '–' || c = '●' || c = '*' || c = '·' || c = '▪' || pyWSChar c

/-- Trigger words of the category-selection chain in `replace_weak_verb`,
paired with the category they select, in source order. -/
def categoryTriggers : List (List String × String) :=
  [(["team", "cross", "group", "stakeholder", "collaborate"], "collaboration"),
   (["build", "develop", "creat", "code", "implement",
     "deploy", "architect", "api", "service", "system"], "development"),
   (["increas", "grow", "generat", "revenue", "sale", "boost"], "growth"),
   (["reduc", "decreas", "cut", "lower", "minim", "remov"], "reduction"),
   (["analyz", "resear", "assess", "evaluat", "investigat", "diagnos"], "analysis"),
   (["lead", "manag", "direct", "mentor", "supervis", "overse"], "leadership"),
   (["automat", "integrat", "migrat", "digit", "transform"], "automation"),
   (["optimiz", "improv", "enhanc", "streamlin", "acceler"], "improvement")]

/-- The strong-verb category selected for a (lowercased) sentence body. -/
def chooseCategory (context_lower : String) : String :=
  match categoryTriggers.find? (fun p => p.1.any fun w => pyIn w context_lower) with
  | some p => p.2
  | none => "development"

/-- Does the first word match `weak` per the replace_weak_verb test (exact, or
4-character-prefix heuristic for words longer than 4, excluding a fixed
trio)? -/
def weakVerbHit (first_word_lower : String) (weak : String) : Bool :=
  first_word_lower == weak ||
    (decide (first_word_lower.length > 4) &&
     (weak.data.take 4).isPrefixOf first_word_lower.data &&
     !(["the", "was", "has"].contains weak))

/-- Worker for Python `str.split()`: accumulate the current word (reversed)
and break on whitespace runs. -/
def splitWSAux : List Char → List Char → List (List Char)
  | [], acc => if acc.isEmpty then [] else [acc.reverse]
  | c :: rest, acc =>
    if pyWSChar c then
      if acc.isEmpty then splitWSAux rest [] else acc.reverse :: splitWSAux rest []
    else splitWSAux rest (c :: acc)

/-- Python `s.split()` (split on whitespace runs, no empty tokens). -/
def splitWSL (l : List Char) : List (List Char) := splitWSAux l []

/-- optimizer.replace_weak_verb: strip, try smart transforms, then the
weak-verb fallback.  `pick` is the `random.choice` oracle. -/
def replace_weak_verb (pick : List String → String) (sentence : String) : String :=
  let sentence := pyStrip sentence
  if sentence = "" then sentence
  else
    let clean := pyStrip ⟨sentence.data.dropWhile bulletGlyph⟩
    if clean = "" then sentence
    else
      match apply_smart_transform clean with
      | some smart => smart
      | none =>
        let words := splitWSL clean.data
        match words with
        | [] => sentence
        | w0 :: restWords =>
          let first_word_lower : String := ⟨lowerL w0⟩
          match WEAK_VERBS.find? (fun weak => weakVerbHit first_word_lower weak) with
          | none => sentence
          | some _ =>
            let context_lower := pyLower clean
            let new_verb := pick (strongVerbPool (chooseCategory context_lower))
            let rest := String.intercalate " " (restWords.map fun w => (⟨w⟩ : String))
            if rest = "" then sentence
            else new_verb ++ " " ++ rest

/-! ## Data model

Python dicts are modeled by records.  `raw_sections` is modeled by its key
list (the core only tests key membership), `contact` by its `email` entry (the
only one the core reads; a missing key and an empty string are both falsy in
the source).  Experience entries carry their bullets plus the remaining
dict entries, which the optimizer copies through untouched.  The analyzer
always emits every JD-profile key, so a profile is modeled as a total
record. -/

/-- One experience entry of a parsed resume. -/
structure ExpEntry where
  bullets : List String
  other : List (String × String)
deriving Repr, DecidableEq

/-- The JD sections mapping produced by the analyzer. -/
structure Sections where
  responsibilities : String
  requirements : String
  nice_to_have : String
  about_company : String
deriving Repr, DecidableEq

/-- The JD profile produced by `analyze_jd` and consumed by the optimizer. -/
structure JDProfile where
  job_title : String
  domain : String
  experience_level : String
  technical_skills : List String
  soft_skills : List String
  keywords : List String
  action_verbs : List String
  skills_by_category : List (String × List String)
  sections : Sections
  raw_text : String
deriving Repr, DecidableEq

/-- A parsed resume record (the fields the core reads). -/
structure ResumeData where
  name : String
  contact_email : String
  summary : String
  skills : List String
  experience : List ExpEntry
  experience_raw : String
  education : String
  projects : String
  certifications : String
  raw_sections : List String
  full_text : String
  years_experience : Nat
deriving Repr, DecidableEq

/-- A scored category of the ATS breakdown (technical skills / keywords). -/
structure CatEntry where
  score : Nat
  catMax : Nat
  matched : List String
  missing : List String
deriving Repr, DecidableEq

/-- The soft-skills breakdown entry (the source stores no `missing` list). -/
structure SoftEntry where
  score : Nat
  catMax : Nat
  matched : List String
deriving Repr, DecidableEq

/-- The format breakdown entry. -/
structure FormatEntry where
  score : Nat
  catMax : Nat
deriving Repr, DecidableEq

/-- The ATS breakdown: a category key is present (`some`) exactly when the
JD-side list is non-empty. -/
structure Breakdown where
  technical_skills : Option CatEntry
  keywords : Option CatEntry
  soft_skills : Option SoftEntry
  format : FormatEntry
deriving Repr, DecidableEq

/-- The ATS report. -/
structure ATSReport where
  total : Nat
  breakdown : Breakdown
  grade : String
deriving Repr, DecidableEq

/-! ## ATS scorer (optimizer.calculate_ats_score) -/

/-- The technical-skills block of `calculate_ats_score` (40 points max). -/
def techPartOf (jd_tech_skills : List String) (resume_text : String) : Nat × Option CatEntry :=
  if jd_tech_skills.isEmpty then (0, none)
  else
    let matched_tech := jd_tech_skills.filter fun s => pyIn s resume_text
    let tech_score := matched_tech.length * 40 / jd_tech_skills.length
    (tech_score, some ⟨tech_score, 40, matched_tech,
      jd_tech_skills.filter fun s => !(pyIn s resume_text)⟩)

/-- The keyword-coverage block of `calculate_ats_score` (30 points max; the
stored matched/missing lists are truncated to 10 but the score uses the full
counts). -/
def kwPartOf (jd_keywords : List String) (resume_text : String) : Nat × Option CatEntry :=
  if jd_keywords.isEmpty then (0, none)
  else
    let matched_kw := jd_keywords.filter fun k => pyIn k resume_text
    let kw_score := matched_kw.length * 30 / jd_keywords.length
    (kw_score, some ⟨kw_score, 30, matched_kw.take 10,
      (jd_keywords.filter fun k => !(pyIn k resume_text)).take 10⟩)

/-- The soft-skills block of `calculate_ats_score` (15 points max). -/
def softPartOf (jd_soft_skills : List String) (resume_text : String) : Nat × Option SoftEntry :=
  if jd_soft_skills.isEmpty then (0, none)
  else
    let matched_soft := jd_soft_skills.filter fun s => pyIn s resume_text
    let soft_score := matched_soft.length * 15 / jd_soft_skills.length
    (soft_score, some ⟨soft_score, 15, matched_soft⟩)

/-- The structural-format block of `calculate_ats_score`: 3 points per present
section capped at 12, plus 3 for a contact email. -/
def formatScoreOf (resume_data : ResumeData) : Nat :=
  min ((["experience", "education", "skills", "summary"].countP
    fun sec => resume_data.raw_sections.contains sec) * 3) 12 +
  (if resume_data.contact_email != "" then 3 else 0)

/-- optimizer.calculate_ats_score.  `int(ratio * W)` on the non-negative float
`ratio = matched/total` is modeled as the exact floor `matched * W / total`
in `Nat` division. -/
def calculate_ats_score (resume_data : ResumeData) (jd_analysis : JDProfile) : ATSReport :=
  let resume_text := pyLower resume_data.full_text
  let techPart := techPartOf (jd_analysis.technical_skills.map pyLower) resume_text
  let kwPart := kwPartOf (jd_analysis.keywords.map pyLower) resume_text
  let softPart := softPartOf (jd_analysis.soft_skills.map pyLower) resume_text
  let format_score := formatScoreOf resume_data
  let rawScore := techPart.1 + kwPart.1 + softPart.1 + format_score
  let score := max rawScore 15
  ⟨min score 100,
   ⟨techPart.2, kwPart.2, softPart.2, ⟨format_score, 15⟩⟩,
   if score ≥ 85 then "A" else if score ≥ 70 then "B" else if score ≥ 55 then "C" else "D"⟩

/-! ## Skills-section optimizer (optimizer.optimize_skills_section) -/

/-- The first taxonomy category containing a skill (case-insensitively), in
SKILLS_DB order — the `break` of the source loop. -/
def findSkillDomain (jd_skill : String) : Option String :=
  (SKILLS_DB.find? fun p => (p.2.map pyLower).contains (pyLower jd_skill)).map Prod.fst

/-- The taxonomy categories in which the resume already has at least one
skill (the `existing_domains` set; built here in SKILLS_DB order, only
membership is ever used). -/
def existingDomains (resume_skills : List String) : List String :=
  (SKILLS_DB.filter fun p =>
    resume_skills.any fun sk => (p.2.map pyLower).contains (pyLower sk)).map Prod.fst

/-- Case-insensitive order-preserving dedup, keeping the first casing seen
(`seen` holds the lowercased forms already emitted). -/
def dedupeCIAux (seen : List String) : List String → List String
  | [] => []
  | s :: rest =>
    if seen.contains (pyLower s) then dedupeCIAux seen rest
    else s :: dedupeCIAux (pyLower s :: seen) rest

/-- Case-insensitive order-preserving dedup. -/
def dedupeCI (l : List String) : List String := dedupeCIAux [] l

/-- optimizer.optimize_skills_section: keep existing skills, append JD skills
whose taxonomy category the resume already covers, then dedup. -/
def optimize_skills_section (resume_skills : List String) (jd_analysis : JDProfile) : List String :=
  let jd_tech_skills := jd_analysis.technical_skills
  let resume_text_lower := String.intercalate " " (resume_skills.map pyLower)
  let existing := existingDomains resume_skills
  let added := jd_tech_skills.filter fun jd_skill =>
    if pyIn (pyLower jd_skill) resume_text_lower then false
    else
      match findSkillDomain jd_skill with
      | some d => existing.contains d
      | none => false
  dedupeCI (resume_skills ++ added)

/-! ## Experience optimizer (optimizer.enhance_bullet / optimize_experience) -/

/-- The step-2 insertion loop of `enhance_bullet`: walk the JD skill list in
priority order, skip used or already-present skills, stop at the first
successful insertion (appending that skill to the used list). -/
def tryInsertKeyword (enhanced : String) : List String → List String → String × List String
  | [], used => (enhanced, used)
  | skill :: skills, used =>
    if used.contains skill then tryInsertKeyword enhanced skills used
    else if pyIn (pyLower skill) (pyLower enhanced) then tryInsertKeyword enhanced skills used
    else
      let new_enhanced := insert_keyword_naturally enhanced skill
      if new_enhanced != enhanced then (new_enhanced, used ++ [skill])
      else tryInsertKeyword enhanced skills used

/-- optimizer.enhance_bullet: verb rewrite, then at most one keyword
insertion (only attempted when the rewritten text is shorter than 160
characters), then first-letter capitalization.  Returns the enhanced bullet
and the updated global used-keyword list.  `jd_keywords` is accepted and
ignored, as in the source. -/
def enhance_bullet (pick : List String → String) (bullet : String)
    (jd_keywords jd_skills used_keywords : List String) : String × List String :=
  if bullet = "" ∨ bullet.length < 5 then (bullet, used_keywords)
  else
    let enhanced := replace_weak_verb pick bullet
    let p :=
      if enhanced.length < 160 then tryInsertKeyword enhanced jd_skills used_keywords
      else (enhanced, used_keywords)
    (if p.1 = "" then p.1 else capFirst p.1, p.2)

/-- The inner bullet loop of `optimize_experience`: skip whitespace-only
bullets, enhance the rest in order, threading the used-keyword list. -/
def enhanceBullets (pick : List String → String) (jdK jdS : List String) :
    List String → List String → List String × List String
  | [], used => ([], used)
  | b :: bs, used =>
    if pyStrip b = "" then enhanceBullets pick jdK jdS bs used
    else
      let p := enhance_bullet pick b jdK jdS used
      let q := enhanceBullets pick jdK jdS bs p.2
      (p.1 :: q.1, q.2)

/-- The entry loop of `optimize_experience`: rebuild each entry with its
enhanced bullets (all other entry fields copied), threading the global
used-keyword list across entries. -/
def optimizeEntriesAux (pick : List String → String) (jdK jdS : List String) :
    List ExpEntry → List String → List ExpEntry × List String
  | [], used => ([], used)
  | e :: es, used =>
    let p := enhanceBullets pick jdK jdS e.bullets used
    let q := optimizeEntriesAux pick jdK jdS es p.2
    (⟨p.1, e.other⟩ :: q.1, q.2)

/-- optimizer.optimize_experience: enhance every bullet of every entry with
the top-12 JD technical skills and the top-10 JD keywords, starting from an
empty global used-keyword list. -/
def optimize_experience (pick : List String → String)
    (experience_list : List ExpEntry) (jd_analysis : JDProfile) : List ExpEntry :=
  (optimizeEntriesAux pick (jd_analysis.keywords.take 10)
    (jd_analysis.technical_skills.take 12) experience_list []).1

/-! ## Keyword diff (optimizer.compute_keyword_diff) -/

/-- The keyword diff record. -/
structure KeywordDiff where
  added : List String
  already_had : List String
deriving Repr, DecidableEq

/-- The `compute_keyword_diff` loop: `seen` holds lowercased keywords already
handled; keywords shorter than 3 characters are skipped. -/
def kwDiffAux (before_lower after_lower : String) :
    List String → List String → List String × List String
  | [], _ => ([], [])
  | kw :: kws, seen =>
    let kw_lower := pyLower kw
    if seen.contains kw_lower ∨ kw_lower.length < 3 then
      kwDiffAux before_lower after_lower kws seen
    else
      let rest := kwDiffAux before_lower after_lower kws (kw_lower :: seen)
      if pyIn kw_lower after_lower then
        if pyIn kw_lower before_lower then (rest.1, kw :: rest.2)
        else (kw :: rest.1, rest.2)
      else rest

/-- optimizer.compute_keyword_diff. -/
def compute_keyword_diff (before_text after_text : String) (jd_keywords : List String) :
    KeywordDiff :=
  let r := kwDiffAux (pyLower before_text) (pyLower after_text) jd_keywords []
  ⟨r.1.take 15, r.2.take 15⟩

/-! ## Summary rewriter (optimizer.rewrite_summary) -/

/-- Uppercase a whole string (Python `str.upper` on ASCII). -/
def pyUpper (s : String) : String := ⟨s.data.map pyUpperChar⟩

/-- Python `str.capitalize`: first character uppercased, the rest lowercased. -/
def pyCapitalize (s : String) : String :=
  match s.data with
  | [] => ""
  | c :: cs => ⟨pyUpperChar c :: cs.map pyLowerChar⟩

/-- Python `str.title` on ASCII: uppercase after a non-letter, lowercase
otherwise (`prev` records whether the previous character was a letter). -/
def pyTitleAux : Bool → List Char → List Char
  | _, [] => []
  | prev, c :: cs =>
    (if prev then pyLowerChar c else pyUpperChar c) :: pyTitleAux c.isAlpha cs

/-- Python `str.title` on ASCII. -/
def pyTitle (s : String) : String := ⟨pyTitleAux false s.data⟩

/-- Is a digit at position `i`? -/
def isDigitAt (l : List Char) (i : Nat) : Bool :=
  match l.get? i with
  | some c => c.isDigit
  | none => false

/-- Does `\b\d{2,}\b` match starting at position `i`? (At least two digits
whose maximal run has non-word characters on both sides.) -/
def twoDigitWordAt (l : List Char) (i : Nat) : Bool :=
  let leftOK := if i = 0 then true else !(isWordCharAt l (i - 1))
  let run := countWhile Char.isDigit (l.drop i)
  leftOK && decide (run ≥ 2) && !(isWordCharAt l (i + run))

/-- Presence of the quantifiable-metric regex
`\d+%|\$[\d,]+|\d+x|\b\d{2,}\b` (searched case-insensitively, so `x` also
matches `X`). -/
def hasMetric (l : List Char) : Bool :=
  (List.range (l.length + 1)).any fun i =>
    (isDigitAt l i && l.get? (i + 1) == some '%') ||
    (l.get? i == some '$' && (isDigitAt l (i + 1) || l.get? (i + 1) == some ',')) ||
    (isDigitAt l i && (l.get? (i + 1) == some 'x' || l.get? (i + 1) == some 'X')) ||
    twoDigitWordAt l i

/-- First experience bullet containing a quantifiable metric, truncated to 120
characters ("" when none). -/
def findBestAchievement : List ExpEntry → String
  | [] => ""
  | e :: es =>
    match e.bullets.find? (fun b => hasMetric b.data) with
    | some b => ⟨b.data.take 120⟩
    | none => findBestAchievement es

/-- The experience-level phrase map of `rewrite_summary` (a dict lookup with
a mid-level default). -/
def expPhrase (experience_level : String) (years_exp : Nat) : String :=
  if experience_level == "junior" then
    "with " ++ toString (max years_exp 1) ++ "+ year" ++
      (if years_exp != 1 then "s" else "") ++ " of hands-on experience"
  else if experience_level == "mid-level" then
    "with " ++ toString (max years_exp 2) ++ "+ years of professional experience"
  else if experience_level == "senior" then
    "with " ++ toString (max years_exp 4) ++ "+ years of deep technical expertise"
  else if experience_level == "staff/principal" then
    "with " ++ toString (max years_exp 6) ++ "+ years of industry-leading expertise"
  else if experience_level == "executive/director" then
    "with " ++ toString (max years_exp 8) ++ "+ years of strategic leadership experience"
  else
    "with " ++ toString (max years_exp 2) ++ "+ years of professional experience"

/-- Display casing for a matched skill: prefer the casing used in the resume
skill list, otherwise the fixed casing table of the source. -/
def properCaseSkill (resume_skills_list : List String) (ts : String) : String :=
  match resume_skills_list.find? (fun s => pyLower s == pyLower ts) with
  | some s => s
  | none =>
    if ["python", "react", "docker", "kubernetes", "ansible"].contains (pyLower ts) then
      pyCapitalize ts
    else if ["aws", "api", "sql", "html", "css", "git", "ci/cd", "gcp"].contains (pyLower ts) then
      pyUpper ts
    else if ["javascript", "typescript"].contains (pyLower ts) then
      pyCapitalize ts
    else if decide (ts.length > 4) then pyTitle ts
    else pyUpper ts

/-- First Software Engineering summary template. -/
def seTemplateA (soft _domain exp skills : String) : String :=
  soft ++ " software engineer " ++ exp ++ " specializing in " ++ skills ++ ". " ++
  "Proven track record of designing and delivering scalable, high-performance systems " ++
  "that align with business objectives. Expertise in full-stack development, " ++
  "cross-functional collaboration, and engineering best practices."

/-- Second Software Engineering summary template. -/
def seTemplateB (_soft domain exp skills : String) : String :=
  "Accomplished " ++ domain ++ " professional " ++ exp ++ " in " ++ skills ++ ". " ++
  "Demonstrated ability to architect and implement robust solutions across the SDLC, " ++
  "from requirements gathering to production deployment. " ++
  "Recognized for clean code practices, proactive problem-solving, " ++
  "and delivering measurable impact in agile environments."

/-- Data Science/ML summary template. -/
def dsTemplate (soft _domain exp skills : String) : String :=
  soft ++ " data professional " ++ exp ++ " specializing in " ++ skills ++ ". " ++
  "Proven ability to transform complex datasets into actionable insights " ++
  "and production-ready machine learning models. " ++
  "Experienced in building data pipelines, statistical modeling, and A/B testing."

/-- DevOps/Cloud summary template. -/
def devopsTemplate (soft _domain exp skills : String) : String :=
  soft ++ " DevOps/Cloud engineer " ++ exp ++ " with expertise in " ++ skills ++ ". " ++
  "Proven record of building and maintaining reliable, scalable infrastructure " ++
  "using infrastructure-as-code and CI/CD best practices. " ++
  "Committed to improving deployment velocity and system observability."

/-- The template pool for a detected domain (Software Engineering pool is the
default). -/
def summaryTemplates (domain : String) :
    List (String → String → String → String → String) :=
  if domain == "Software Engineering" then [seTemplateA, seTemplateB]
  else if domain == "Data Science/ML" then [dsTemplate]
  else if domain == "DevOps/Cloud" then [devopsTemplate]
  else [seTemplateA, seTemplateB]

/-- optimizer.rewrite_summary.  `tidx` is the `random.choice` oracle for the
template pool (reduced modulo the pool size, so any oracle value selects a
pool member). -/
def rewrite_summary (tidx : Nat) (resume_data : ResumeData) (jd_analysis : JDProfile) : String :=
  let years_exp := resume_data.years_experience
  let domain := jd_analysis.domain
  let experience_level := jd_analysis.experience_level
  let tech_skills := jd_analysis.technical_skills
  let soft_skills := jd_analysis.soft_skills
  let resume_text := pyLower resume_data.full_text
  let resume_skills_list := resume_data.skills
  let resume_skills_lower := resume_skills_list.map pyLower
  let joined_skills := String.intercalate " " resume_skills_lower
  let matching_tech_skills :=
    (tech_skills.filter fun s =>
      pyIn (pyLower s) resume_text || pyIn (pyLower s) joined_skills).take 5
  let matching_tech_skills :=
    if matching_tech_skills.isEmpty then tech_skills.take 3 else matching_tech_skills
  let matching_display := matching_tech_skills.map (properCaseSkill resume_skills_list)
  let skills_str :=
    if matching_display.length ≥ 2 then
      String.intercalate ", " matching_display.dropLast ++ ", and " ++
        (matching_display.getLastD "")
    else if matching_display.length = 1 then matching_display.headD ""
    else domain
  let exp_phrase := expPhrase experience_level years_exp
  let best_achievement := findBestAchievement resume_data.experience
  let selected_soft :=
    match soft_skills with
    | [] => "Results-driven"
    | s :: _ => pyCapitalize s
  let templates := summaryTemplates domain
  let template := templates.getD (tidx % templates.length) seTemplateA
  let summary := template selected_soft domain exp_phrase skills_str
  let summary :=
    if best_achievement != "" then
      let clean_achievement := pyRStripSet ['.'] (pyStrip best_achievement)
      if clean_achievement.data.any Char.isDigit then
        pyRStripSet ['.'] summary ++ ". Notable achievement: " ++ clean_achievement ++ "."
      else summary
    else summary
  pyStrip summary

/-! ## Orchestrator (optimizer.optimize_resume) -/

/-- The optimized resume record built by the orchestrator (the keys of the
`optimized_data` dict). -/
structure OptimizedResume where
  name : String
  contact_email : String
  summary : String
  skills : List String
  experience : List ExpEntry
  experience_raw : String
  education : String
  projects : String
  certifications : String
  raw_sections : List String
  jd_title : String
  domain : String
deriving Repr, DecidableEq

/-- The orchestrator result. -/
structure OptimizeResult where
  optimized : OptimizedResume
  ats_before : Nat
  ats_after : Nat
  ats_grade : String
  ats_breakdown : Breakdown
  keywords_added : List String
  keywords_existing : List String
  jd_analysis : JDProfile
deriving Repr, DecidableEq

/-- optimizer.optimize_resume: score, rewrite summary, optimize skills and
experience, re-score on the optimized text appended to the original full
text, and compute the keyword diff. -/
def optimize_resume (pick : List String → String) (tidx : Nat)
    (resume_data : ResumeData) (jd_analysis : JDProfile) : OptimizeResult :=
  let original_text := resume_data.full_text
  let pre_ats := calculate_ats_score resume_data jd_analysis
  let new_summary := rewrite_summary tidx resume_data jd_analysis
  let original_skills := resume_data.skills
  let optimized_skills := optimize_skills_section original_skills jd_analysis
  let original_experience := resume_data.experience
  let optimized_experience := optimize_experience pick original_experience jd_analysis
  let optimized_data : OptimizedResume :=
    ⟨resume_data.name, resume_data.contact_email, new_summary, optimized_skills,
     optimized_experience, resume_data.experience_raw, resume_data.education,
     resume_data.projects, resume_data.certifications, resume_data.raw_sections,
     jd_analysis.job_title, jd_analysis.domain⟩
  let optimized_text_parts :=
    new_summary :: String.intercalate " " optimized_skills ::
      (optimized_experience.map (fun e => e.bullets)).flatten
  let optimized_text := pyLower (String.intercalate " " optimized_text_parts)
  let temp_data : ResumeData :=
    ⟨resume_data.name, resume_data.contact_email, new_summary, optimized_skills,
     optimized_experience, resume_data.experience_raw, resume_data.education,
     resume_data.projects, resume_data.certifications, resume_data.raw_sections,
     optimized_text ++ " " ++ original_text, resume_data.years_experience⟩
  let post_ats := calculate_ats_score temp_data jd_analysis
  let kw_diff := compute_keyword_diff original_text optimized_text
    (jd_analysis.technical_skills ++ jd_analysis.keywords)
  ⟨optimized_data, pre_ats.total, post_ats.total, post_ats.grade, post_ats.breakdown,
   kw_diff.added, kw_diff.already_had, jd_analysis⟩

/-! ## JD analyzer (jd_analyzer.py)

Python `set` iteration order is implementation-defined (hash-randomized); the
two places the analyzer iterates or truncates a set (`extract_action_verbs`,
`list(set(all_tech_skills))[:30]`) are modeled canonically: sorted dedup for
the verb sets, first-occurrence dedup for the skill flattening.  The TF-IDF
float scores are modeled by their exact real values; comparisons between two
scores reduce to an integer inequality (see `tfidfLt`). -/

/-- jd_analyzer.STOPWORDS. -/
def STOPWORDS : List String :=
  ["a", "an", "the", "and", "or", "but", "in", "on", "at", "to", "for",
   "of", "with", "by", "from", "as", "is", "was", "are", "were", "be",
   "been", "being", "have", "has", "had", "do", "does", "did", "will",
   "would", "could", "should", "may", "might", "must", "shall", "can",
   "our", "your", "their", "its", "we", "you", "they", "he", "she", "it",
   "this", "that", "these", "those", "i", "me", "my", "us", "him", "her",
   "who", "what", "which", "when", "where", "how", "why", "all", "any",
   "both", "each", "few", "more", "most", "other", "some", "such", "no",
   "not", "only", "own", "same", "than", "too", "very", "just", "about",
   "above", "after", "against", "also", "between", "during", "into",
   "through", "while", "within", "without", "including", "across"]

/-- jd_analyzer.EXPERIENCE_LEVELS, in source (dict-insertion) order. -/
def EXPERIENCE_LEVELS : List (String × List String) :=
  [("entry", ["entry level", "entry-level", "junior", "0-1 year", "0-2 year",
              "fresh graduate", "recent graduate", "new grad", "trainee", "intern"]),
   ("mid", ["mid level", "mid-level", "2-4 year", "2-5 year", "3-5 year",
            "associate", "intermediate"]),
   ("senior", ["senior", "sr.", "lead", "5+ year", "5-7 year", "7+ year",
               "principal", "staff", "expert", "advanced"]),
   ("executive", ["director", "vp", "vice president", "cto", "ceo", "head of",
                  "chief", "executive", "c-level", "manager"])]

/-- Characters kept by `clean_text` (the class `[\w\s\-\+\#\.]`); everything
else becomes a space. -/
def keepInClean (c : Char) : Bool :=
  isWordChar c || pyWSChar c || c = '-' || c = '+' || c = '#' || c = '.'

/-- jd_analyzer.clean_text: lowercase, replace characters outside
`[\w\s\-\+\#\.]` by spaces, collapse whitespace runs, strip.  Collapsing every
whitespace run to one space and stripping equals joining the
whitespace-separated pieces with single spaces. -/
def clean_text (text : String) : String :=
  let t1 := (pyLower text).data.map fun c => if keepInClean c then c else ' '
  String.intercalate " " ((splitWSL t1).map fun w => (⟨w⟩ : String))

/-- The punctuation set stripped from token ends by `tokenize`
(`'.,;:()[]\x7b\x7d'`). -/
def tokenPunct : List Char :=
  ['.', ',', ';', ':', '(', ')', '[', ']', Char.ofNat 123, Char.ofNat 125]

/-- jd_analyzer.tokenize: lowercase, split on whitespace, strip punctuation
from token ends, drop empties. -/
def tokenize (text : String) : List String :=
  ((splitWSL (pyLower text).data).map fun w => pyStripSet tokenPunct (⟨w⟩ : String)).filter
    fun w => w ≠ ""

/-- Bump the count of `t` in a first-occurrence-ordered count list (the
`Counter` of the source). -/
def bumpCount : List (String × Nat) → String → List (String × Nat)
  | [], t => [(t, 1)]
  | (s, n) :: rest, t =>
    if s == t then (s, n + 1) :: rest else (s, n) :: bumpCount rest t

/-- Term counts of a token list, in first-occurrence order. -/
def tfCounts (tokens : List String) : List (String × Nat) := tokens.foldl bumpCount []

/-- The token filter of `compute_tfidf` (drop stopwords and tokens of length
at most 2), followed by counting.  The float score of a word with count `c`
out of `total` is `(c/total) * ln(100/(1+c))`; only the count is recorded
because every downstream use compares scores, which `tfidfLt` decides
exactly. -/
def compute_tfidf_counts (text : String) : List (String × Nat) :=
  let tokens := tokenize (clean_text text)
  let filtered := tokens.filter fun t => !(STOPWORDS.contains t) && decide (t.length > 2)
  tfCounts filtered

/-- Exact comparison of two TF-IDF scores sharing a total: with
`score c = (c/T) * ln(100/(1+c))`, the inequality `score c1 < score c2` holds
exactly when `100^c1 * (1+c2)^c2 < 100^c2 * (1+c1)^c1` (apply `exp` to both
sides after folding the factors into one logarithm each). -/
def tfidfLt (c1 c2 : Nat) : Bool :=
  100 ^ c1 * (1 + c2) ^ c2 < 100 ^ c2 * (1 + c1) ^ c1

/-- Stable-descending insertion: place `x` after every earlier item whose
score is at least as large (Python `sorted(..., reverse=True)` is stable). -/
def insertDesc (x : String × Nat) : List (String × Nat) → List (String × Nat)
  | [] => [x]
  | y :: ys => if tfidfLt y.2 x.2 then x :: y :: ys else y :: insertDesc x ys

/-- Stable sort by descending TF-IDF score. -/
def sortDesc (l : List (String × Nat)) : List (String × Nat) :=
  l.foldl (fun acc x => insertDesc x acc) []

/-- jd_analyzer.extract_top_keywords: TF-IDF scores, a second stopword/length
filter, then the top `top_n` terms by descending score. -/
def extract_top_keywords (text : String) (top_n : Nat) : List String :=
  let scores := compute_tfidf_counts text
  let filtered := scores.filter fun wc => !(STOPWORDS.contains wc.1) && decide (wc.1.length > 3)
  ((sortDesc filtered).map Prod.fst).take top_n

/-- jd_analyzer.extract_skills_from_text: whole-word taxonomy matching; a
category appears only when at least one skill matched. -/
def extract_skills_from_text (text : String) : List (String × List String) :=
  let tl := (pyLower text).data
  (SKILLS_DB.map fun p =>
    (p.1, p.2.filter fun skill => wholeWordSearch (pyLower skill).data tl)).filter
    fun p => !(p.2.isEmpty)

/-- Digits of a maximal run, as a number. -/
def natOfDigits (l : List Char) : Nat :=
  l.foldl (fun acc c => acc * 10 + (c.toNat - 48)) 0

/-- Match `(\d+)\+?\s*(?:to|-)\s*(\d+)\s*years?` at one position (each greedy
piece is forced: no shorter choice can let the next piece match, so the
matcher is deterministic). -/
def matchRangeAt (l : List Char) (i : Nat) : Option (Nat × Nat) :=
  let s := l.drop i
  let d1 := countWhile Char.isDigit s
  if d1 = 0 then none
  else
    let s1 := s.drop d1
    let s2 := if s1.head? = some '+' then s1.drop 1 else s1
    let s3 := s2.drop (countWhile pyWSChar s2)
    let sep : Option (List Char) :=
      if ['t', 'o'].isPrefixOf s3 then some (s3.drop 2)
      else if s3.head? = some '-' then some (s3.drop 1)
      else none
    match sep with
    | none => none
    | some s4 =>
      let s5 := s4.drop (countWhile pyWSChar s4)
      let d2 := countWhile Char.isDigit s5
      if d2 = 0 then none
      else
        let s6 := s5.drop d2
        let s7 := s6.drop (countWhile pyWSChar s6)
        if ['y', 'e', 'a', 'r'].isPrefixOf s7 then
          some (natOfDigits (s.take d1), natOfDigits (s5.take d2))
        else none

/-- Match `(\d+)\+\s*years?` at one position. -/
def matchPlusAt (l : List Char) (i : Nat) : Option Nat :=
  let s := l.drop i
  let d1 := countWhile Char.isDigit s
  if d1 = 0 then none
  else
    let s1 := s.drop d1
    if s1.head? = some '+' then
      let s2 := (s1.drop 1).drop (countWhile pyWSChar (s1.drop 1))
      if ['y', 'e', 'a', 'r'].isPrefixOf s2 then some (natOfDigits (s.take d1)) else none
    else none

/-- Match `minimum\s+(\d+)\s+years?` at one position. -/
def matchMinAt (l : List Char) (i : Nat) : Option Nat :=
  match dropCILit ("minimum").data (l.drop i) with
  | none => none
  | some s =>
    let w1 := countWhile pyWSChar s
    if w1 = 0 then none
    else
      let s1 := s.drop w1
      let d1 := countWhile Char.isDigit s1
      if d1 = 0 then none
      else
        let s2 := s1.drop d1
        let w2 := countWhile pyWSChar s2
        if w2 = 0 then none
        else if ['y', 'e', 'a', 'r'].isPrefixOf (s2.drop w2) then
          some (natOfDigits (s1.take d1))
        else none

/-- Match `at\s+least\s+(\d+)\s+years?` at one position. -/
def matchAtLeastAt (l : List Char) (i : Nat) : Option Nat :=
  match dropCILit ("at").data (l.drop i) with
  | none => none
  | some s =>
    let w0 := countWhile pyWSChar s
    if w0 = 0 then none
    else
      match dropCILit ("least").data (s.drop w0) with
      | none => none
      | some s1 =>
        let w1 := countWhile pyWSChar s1
        if w1 = 0 then none
        else
          let s2 := s1.drop w1
          let d1 := countWhile Char.isDigit s2
          if d1 = 0 then none
          else
            let s3 := s2.drop d1
            let w2 := countWhile pyWSChar s3
            if w2 = 0 then none
            else if ['y', 'e', 'a', 'r'].isPrefixOf (s3.drop w2) then
              some (natOfDigits (s2.take d1))
            else none

/-- `re.search` position scan: try `f` at positions `0..n`, leftmost first. -/
def searchPos (f : Nat → Option α) (n : Nat) : Option α :=
  firstSome f (List.range (n + 1))

/-- The year-count-to-level threshold table. -/
def levelOfYears (years : Nat) : String :=
  if years ≤ 2 then "junior"
  else if years ≤ 5 then "mid-level"
  else if years ≤ 8 then "senior"
  else "staff/principal"

/-- The `level_map` of the keyword fallback. -/
def levelMap (level : String) : String :=
  if level == "entry" then "junior"
  else if level == "mid" then "mid-level"
  else if level == "senior" then "senior"
  else if level == "executive" then "executive/director"
  else "mid-level"

/-- jd_analyzer.extract_experience_level: the four year patterns in priority
order (each searched over the whole lowercased text, leftmost match), then
the keyword table, then the mid-level default. -/
def extract_experience_level (text : String) : String :=
  let tl := (pyLower text).data
  match searchPos (matchRangeAt tl) tl.length with
  | some nm => levelOfYears nm.2
  | none =>
    match searchPos (matchPlusAt tl) tl.length with
    | some n => levelOfYears n
    | none =>
      match searchPos (matchMinAt tl) tl.length with
      | some n => levelOfYears n
      | none =>
        match searchPos (matchAtLeastAt tl) tl.length with
        | some n => levelOfYears n
        | none =>
          match EXPERIENCE_LEVELS.find? (fun p => p.2.any fun kw => pyIn kw (⟨tl⟩ : String)) with
          | some p => levelMap p.1
          | none => "mid-level"

/-- Lexicographic (code-point) order on character lists. -/
def lexLtL : List Char → List Char → Bool
  | [], [] => false
  | [], _ :: _ => true
  | _ :: _, [] => false
  | a :: l1, b :: l2 =>
    if a.toNat < b.toNat then true
    else if b.toNat < a.toNat then false
    else lexLtL l1 l2

/-- Ascending lexicographic insertion. -/
def insertAsc (x : String) : List String → List String
  | [] => [x]
  | y :: ys => if lexLtL x.data y.data then x :: y :: ys else y :: insertAsc x ys

/-- Drop adjacent duplicates of a sorted list. -/
def dedupAdj : List String → List String
  | [] => []
  | [x] => [x]
  | x :: y :: rest =>
    if x == y then dedupAdj (y :: rest) else x :: dedupAdj (y :: rest)

/-- Canonical model of a Python `set` of strings: lexicographically sorted,
duplicates removed. -/
def sortedDedup (l : List String) : List String :=
  dedupAdj (l.foldl (fun acc x => insertAsc x acc) [])

/-- The extra common JD verbs of `extract_action_verbs`. -/
def JD_VERBS : List String :=
  ["design", "develop", "build", "create", "implement", "deploy",
   "manage", "lead", "collaborate", "analyze", "optimize", "maintain",
   "architect", "establish", "drive", "deliver", "scale", "improve",
   "integrate", "automate", "monitor", "troubleshoot", "review"]

/-- jd_analyzer.extract_action_verbs: whole-word search for every verb of the
strong-verb vocabulary (lowercased) plus the common JD verbs, capitalized,
deduplicated and capped at 20.  The source iterates Python sets here; both
sets are modeled in sorted order. -/
def extract_action_verbs (text : String) : List String :=
  let all_verbs := ((STRONG_VERBS.map fun p => p.2.map pyLower).flatten) ++ JD_VERBS
  let tl := (pyLower text).data
  let found := (sortedDedup all_verbs).filter fun verb => wholeWordSearch verb.data tl
  (sortedDedup (found.map pyCapitalize)).take 20

/-- jd_analyzer.extract_soft_skills: whole-word search over the soft-skills
taxonomy category. -/
def extract_soft_skills (text : String) : List String :=
  let soft :=
    match SKILLS_DB.find? (fun p => p.1 == "soft_skills") with
    | some p => p.2
    | none => []
  let tl := (pyLower text).data
  soft.filter fun skill => wholeWordSearch skill.data tl

/-- jd_analyzer.detect_industry_domain keyword table, in source order. -/
def domainKeywords : List (String × List String) :=
  [("Software Engineering",
    ["software engineer", "software developer", "backend", "frontend",
     "full stack", "fullstack", "web developer", "api", "microservices"]),
   ("Data Science/ML",
    ["data scientist", "machine learning", "deep learning", "ml engineer",
     "ai engineer", "data engineer", "analytics"]),
   ("DevOps/Cloud",
    ["devops", "cloud", "infrastructure", "kubernetes", "ci/cd",
     "site reliability", "sre", "platform engineer"]),
   ("Product Management",
    ["product manager", "product owner", "roadmap", "go-to-market",
     "stakeholder", "product strategy"]),
   ("Cybersecurity",
    ["security", "cybersecurity", "penetration", "compliance", "soc", "siem"]),
   ("Finance/Fintech",
    ["financial", "banking", "fintech", "trading", "risk", "compliance"]),
   ("Design/UX",
    ["ux", "ui", "design", "figma", "user research", "product design"]),
   ("Marketing",
    ["marketing", "seo", "growth", "campaigns", "analytics", "brand"]),
   ("Data Engineering",
    ["data pipeline", "etl", "data warehouse", "spark", "airflow", "kafka"])]

/-- jd_analyzer.detect_industry_domain: count substring hits per domain; the
highest count wins, ties broken by table order (`Counter.most_common` is a
stable descending sort over first-insertion order); default Technology. -/
def detect_industry_domain (text : String) (_skills : List (String × List String)) : String :=
  let tl := pyLower text
  let scores := domainKeywords.map fun p => (p.1, p.2.countP fun kw => pyIn kw tl)
  let hits := scores.filter fun p => decide (p.2 > 0)
  match hits with
  | [] => "Technology"
  | h :: rest => (rest.foldl (fun best p => if p.2 > best.2 then p else best) h).1

/-- Encode a section/title header literal: `'.'` stands for the regex
wildcard, every other character for itself. -/
def hdr (s : String) : List (Option Char) :=
  s.data.map fun c => if c = '.' then none else some c

/-- Match an encoded header at the start of `l`; the wildcard accepts any
character (the section patterns carry `re.DOTALL`). -/
def matchHdrAt : List (Option Char) → List Char → Bool
  | [], _ => true
  | _ :: _, [] => false
  | p :: ps, c :: cs =>
    (match p with
     | some pc => pc = c
     | none => true) && matchHdrAt ps cs

/-- Leftmost header occurrence over a list of alternatives (alternation order
decides at equal positions); returns the end position of the match. -/
def searchHdrs (alts : List (List (Option Char))) (l : List Char) : Option Nat :=
  searchPos
    (fun i => (alts.find? fun a => matchHdrAt a (l.drop i)).map fun a => i + a.length)
    l.length

/-- The responsibilities header alternatives. -/
def respAlts : List (List (Option Char)) :=
  (["responsibilities", "what you.ll do", "role responsibilities", "key responsibilities",
    "duties", "your role", "job duties", "what we.re looking for you to do"]).map hdr

/-- The requirements header alternatives. -/
def reqAlts : List (List (Option Char)) :=
  (["requirements", "qualifications", "what you.ll need", "what we need",
    "skills required", "required skills", "minimum qualifications", "you have"]).map hdr

/-- The lazy capture `(.*?)(?=\n[A-Z]|\Z)` of the section patterns, under
DOTALL and IGNORECASE.  With IGNORECASE the class `[A-Z]` matches any ASCII
letter, so the capture (which may cross newlines) extends exactly up to the
first newline that is followed by a letter, or to the end of the text when no
such newline exists (`\Z`). -/
def captureToNLLetter : List Char → List Char
  | [] => []
  | c :: rest =>
    if c == '\n' && (match rest.head? with
        | some d => d.isAlpha
        | none => false) then []
    else c :: captureToNLLetter rest

/-- jd_analyzer.extract_requirements_sections: leftmost header match on the
lowercased text, then the lazy capture bounded by the `\n[A-Z]`-or-end
lookahead, stripped and truncated to 2000 characters.  The nice-to-have
patterns exist in the source but are never applied, so those two fields stay
empty. -/
def extract_requirements_sections (text : String) : Sections :=
  let tl := (pyLower text).data
  let resp :=
    match searchHdrs respAlts tl with
    | some e => (⟨(pyStripL (captureToNLLetter (tl.drop e))).take 2000⟩ : String)
    | none => ""
  let req :=
    match searchHdrs reqAlts tl with
    | some e => (⟨(pyStripL (captureToNLLetter (tl.drop e))).take 2000⟩ : String)
    | none => ""
  ⟨resp, req, "", ""⟩

/-- Case-insensitive literal prefix test (pattern lowercase). -/
def ciPrefixOf (pat l : List Char) : Bool := (dropCILit pat l).isSome

/-- The job-title label alternatives of the first title pattern, with the
optional colon of `position:?` (and the other `:?`s) expanded into
with-colon/without-colon alternatives in regex preference order. -/
def titleAlts : List (List (Option Char)) :=
  (["we.re looking for", "hiring a", "seeking a", "position:", "position",
    "role:", "role", "job title:", "job title"]).map hdr

/-- Match an encoded header case-insensitively with a no-newline wildcard
(the title pattern has IGNORECASE but not DOTALL). -/
def matchTitleAltAt : List (Option Char) → List Char → Bool
  | [], _ => true
  | _ :: _, [] => false
  | p :: ps, c :: cs =>
    (match p with
     | some pc => pyLowerChar c = pc
     | none => c ≠ '\n') && matchTitleAltAt ps cs

/-- The `\s*([^\n,\.]+)` tail of the first title pattern at position `j`:
greedy whitespace first, backtracking until the capture can start; the
capture takes every following character outside `\n,.`. -/
def titleCapture (l : List Char) (j : Nat) : Option String :=
  firstSome
    (fun wlen =>
      let k := j + wlen
      match l.get? k with
      | some c =>
        if c ≠ '\n' ∧ c ≠ ',' ∧ c ≠ '.' then
          some (⟨(l.drop k).takeWhile fun c2 => c2 ≠ '\n' && c2 ≠ ',' && c2 ≠ '.'⟩ : String)
        else none
      | none => none)
    (descRange 0 (countWhile pyWSChar (l.drop j)))

/-- First title pattern at one position: alternatives in order, each followed
by the whitespace-then-capture tail (an alternative whose tail cannot match
backtracks to the next alternative). -/
def matchTitleAAt (l : List Char) (i : Nat) : Option String :=
  firstSome
    (fun ai =>
      let a := titleAlts.getD ai []
      if matchTitleAltAt a (l.drop i) then titleCapture l (i + a.length) else none)
    (List.range titleAlts.length)

/-- The role-word suffixes of the second title pattern. -/
def titleSuffixes : List (List Char) :=
  (["engineer", "developer", "manager", "analyst", "designer", "scientist",
    "architect"]).map String.data

/-- Is `p` the start of a line (`^` under MULTILINE)? -/
def isLineStart (l : List Char) (p : Nat) : Bool :=
  p = 0 || l.get? (p - 1) == some '\n'

/-- Second title pattern `^([A-Z][a-zA-Z\s]+(?:engineer|...))` at one
position: a letter at a line start, a greedy letters-and-whitespace run
backtracking from its maximum, then a suffix alternative; the capture is the
whole match. -/
def matchTitleBAt (l : List Char) (p : Nat) : Option String :=
  if !(isLineStart l p) then none
  else
    match l.get? p with
    | some c0 =>
      if c0.isAlpha then
        let run := countWhile (fun c => c.isAlpha || pyWSChar c) (l.drop (p + 1))
        firstSome
          (fun L =>
            firstSome
              (fun si =>
                let suf := titleSuffixes.getD si []
                if ciPrefixOf suf (l.drop (p + 1 + L)) then
                  some (⟨(l.drop p).take (1 + L + suf.length)⟩ : String)
                else none)
              (List.range titleSuffixes.length))
          (descRange 1 run)
      else none
    | none => none

/-- Exact-string order-preserving dedup (first occurrence kept). -/
def dedupeExactAux (seen : List String) : List String → List String
  | [] => []
  | s :: rest =>
    if seen.contains s then dedupeExactAux seen rest
    else s :: dedupeExactAux (s :: seen) rest

/-- Exact-string order-preserving dedup. -/
def dedupeExact (l : List String) : List String := dedupeExactAux [] l

/-- jd_analyzer.analyze_jd: the empty mapping (`none`) for empty or short
input, otherwise the full profile.  `list(set(all_tech_skills))` is modeled
as first-occurrence dedup. -/
def analyze_jd (jd_text : String) : Option JDProfile :=
  if jd_text = "" ∨ (pyStrip jd_text).length < 50 then none
  else
    let skills := extract_skills_from_text jd_text
    let experience_level := extract_experience_level jd_text
    let action_verbs := extract_action_verbs jd_text
    let keywords := extract_top_keywords jd_text 25
    let soft_skills := extract_soft_skills jd_text
    let domain := detect_industry_domain jd_text skills
    let sections := extract_requirements_sections jd_text
    let all_tech_skills :=
      ((skills.filter fun p => p.1 != "soft_skills").map Prod.snd).flatten
    let titleA := searchPos (matchTitleAAt jd_text.data) jd_text.data.length
    let titleB := searchPos (matchTitleBAt jd_text.data) jd_text.data.length
    let job_title :=
      match titleA with
      | some g => (⟨(pyStrip g).data.take 60⟩ : String)
      | none =>
        match titleB with
        | some g => (⟨(pyStrip g).data.take 60⟩ : String)
        | none => ""
    let job_title :=
      if job_title = "" then
        let first_line : String := ⟨(pyStrip jd_text).data.takeWhile fun c => c ≠ '\n'⟩
        if first_line.length < 80 then pyStrip first_line else job_title
      else job_title
    some ⟨job_title, domain, experience_level, (dedupeExact all_tech_skills).take 30,
          soft_skills.take 10, keywords, action_verbs, skills, sections, jd_text⟩

/-! ## Concrete fixtures used by witnesses -/

/-- A small concrete resume record. -/
def witnessResume : ResumeData :=
  ⟨"Ada", "ada@example.com", "", ["Python"],
   [⟨["Led team of 5 engineers", "  ", "Built api in Python."], []⟩],
   "", "", "", "", ["experience", "skills"],
   "Built apps in Python with teamwork", 3⟩

/-- A small concrete JD profile. -/
def witnessJD : JDProfile :=
  ⟨"", "Technology", "mid-level", ["Python", "Go"], ["teamwork"], [], [], [],
   ⟨"", "", "", ""⟩, ""⟩

/-! ## Bridge lemmas -/

/-- `pyInL` decides `List.IsInfix`. -/
theorem pyInL_decides_substring (needle hay : List Char) :
    pyInL needle hay = true ↔ needle <:+: hay := by
  induction hay with
  | nil =>
    simp [pyInL, List.isEmpty_iff]
  | cons c rest ih =>
    simp only [pyInL, Bool.or_eq_true, List.isPrefixOf_iff_prefix, ih,
      List.infix_cons_iff]

/-- `pyIn` decides substring presence as `List.IsInfix` on the data. -/
theorem pyIn_decides_substring (needle hay : String) :
    pyIn needle hay = true ↔ needle.data <:+: hay.data :=
  pyInL_decides_substring needle.data hay.data

/-- A string whose last character is not whitespace is unchanged by
`rstrip`. -/
theorem pyRStrip_eq_self (s : String) (c : Char) (hc : pyWSChar c = false)
    (h : s.data.getLast? = some c) : pyRStrip s = s := by
  unfold pyRStrip
  obtain ⟨t, ht⟩ : ∃ t, s.data.reverse = c :: t := by
    cases hrev : s.data.reverse with
    | nil =>
      rw [List.reverse_eq_nil_iff] at hrev
      rw [hrev] at h
      simp at h
    | cons a t =>
      have h2 : s.data.getLast? = some a := by
        rw [← List.head?_reverse, hrev]
        rfl
      rw [h] at h2
      injection h2 with h3
      exact ⟨t, by rw [h3]⟩
  rw [ht, List.dropWhile_cons_of_neg (by simp [hc]), ← ht, List.reverse_reverse]

/-! ## C8: the infra-keyword relevance gate -/

/-- C8: for every bullet whose lowercased text contains none of the
devops-bucket trigger terms and every keyword whose lowercased form is an
infra/cloud keyword (such as "Kubernetes"), `insert_keyword_naturally`
returns the bullet unchanged: the keyword is never inserted. -/
theorem infra_keyword_gate_rejection (bullet keyword : String)
    (hkw : pyLower keyword ∈ infraKws)
    (hno : ∀ t ∈ devopsTerms, ¬ (t.data <:+: (pyLower bullet).data)) :
    insert_keyword_naturally bullet keyword = bullet := by
  have hdev : (devopsTerms.any fun t => pyIn t (pyLower bullet)) = false := by
    rw [List.any_eq_false]
    intro t ht h
    exact hno t ht ((pyIn_decides_substring t (pyLower bullet)).mp h)
  have hrel : is_contextually_relevant keyword bullet = false := by
    unfold is_contextually_relevant
    by_cases h1 : pyIn (pyLower keyword) (pyLower bullet) = true
    · simp [h1]
    · simp only [Bool.not_eq_true] at h1
      simp [h1, hkw, hdev]
  unfold insert_keyword_naturally
  by_cases h1 : pyIn (pyLower keyword) (pyLower bullet) = true
  · simp [h1]
  · simp only [Bool.not_eq_true] at h1
    simp [h1, hrel]

/-- C8 witness: the spec scenario, "Kubernetes" against a bullet with no
devops terms. -/
theorem infra_keyword_gate_rejection_witness :
    pyLower ("Kubernetes") ∈ infraKws ∧
    (∀ t ∈ devopsTerms, ¬ (t.data <:+: (pyLower ("Wrote unit tests for the checkout API")).data)) ∧
    insert_keyword_naturally ("Wrote unit tests for the checkout API") ("Kubernetes") =
      "Wrote unit tests for the checkout API" :=
  ⟨by decide, by decide,
   infra_keyword_gate_rejection _ _ (by decide) (by decide)⟩

/-! ## C9: period placement under insertion -/

/-- Decomposing an insertion result built before a final period. -/
theorem insert_clause_data (b m : String) :
    (dropLastChar b ++ m ++ ".").data = b.data.dropLast ++ m.data ++ ['.'] := by
  simp only [String.data_append, dropLastChar, List.append_assoc]

/-- C9 counterexample: with trailing whitespace after the period, the code
checks `rstrip().endswith('.')` but slices the unstripped bullet, so the
period stays in the middle and a second period is appended: the claim fails
for bullets whose period is followed by whitespace. -/
theorem period_insertion_counterexample :
    endsWithChar (pyRStrip ("Developed the payment api. ")) '.' = true ∧
    insert_keyword_naturally ("Developed the payment api. ") ("FastAPI") =
      "Developed the payment api., leveraging FastAPI." ∧
    pyIn (".,") ("Developed the payment api., leveraging FastAPI.") = true :=
  ⟨by decide, by decide, by decide⟩

/-- C9 (amended): for every bullet whose final character is a period (no
trailing whitespace), a performed insertion places the clause between the
text and that period: the result is the bullet without its final period, the
inserted clause, then a single closing period. -/
theorem period_preserving_insertion (bullet keyword : String)
    (hdot : bullet.data.getLast? = some '.') :
    insert_keyword_naturally bullet keyword = bullet ∨
    ∃ mid : String,
      (mid = ", leveraging " ++ keyword ∨ mid = " with " ++ keyword ∨
       mid = " on " ++ keyword ∨ mid = " using " ++ keyword) ∧
      (insert_keyword_naturally bullet keyword).data =
        bullet.data.dropLast ++ mid.data ++ ['.'] := by
  have hr : pyRStrip bullet = bullet := pyRStrip_eq_self bullet '.' (by decide) hdot
  have he : endsWithChar (pyRStrip bullet) '.' = true := by
    rw [hr]
    unfold endsWithChar
    rw [hdot]
    rfl
  unfold insert_keyword_naturally
  by_cases h1 : pyIn (pyLower keyword) (pyLower bullet) = true
  · left
    simp [h1]
  · by_cases h2 : is_contextually_relevant keyword bullet = true
    · simp only [Bool.not_eq_true] at h1
      simp only [h1, Bool.false_eq_true, if_false, h2, Bool.not_true, if_neg,
        Bool.false_eq_true, not_false_eq_true, he, if_true]
      split_ifs with hb hsrch himp hdep hcloud himp2 hdep2 hcloud2
      · right
        refine ⟨", leveraging " ++ keyword, Or.inl rfl, ?_⟩
        have := insert_clause_data bullet (", leveraging " ++ keyword)
        simpa [String.data_append, List.append_assoc] using this
      · right
        refine ⟨" with " ++ keyword, Or.inr (Or.inl rfl), ?_⟩
        have := insert_clause_data bullet (" with " ++ keyword)
        simpa [String.data_append, List.append_assoc] using this
      · right
        refine ⟨" on " ++ keyword, Or.inr (Or.inr (Or.inl rfl)), ?_⟩
        have := insert_clause_data bullet (" on " ++ keyword)
        simpa [String.data_append, List.append_assoc] using this
      · right
        refine ⟨" using " ++ keyword, Or.inr (Or.inr (Or.inr rfl)), ?_⟩
        have := insert_clause_data bullet (" using " ++ keyword)
        simpa [String.data_append, List.append_assoc] using this
      · left
        rfl
      · right
        refine ⟨" with " ++ keyword, Or.inr (Or.inl rfl), ?_⟩
        have := insert_clause_data bullet (" with " ++ keyword)
        simpa [String.data_append, List.append_assoc] using this
      · right
        refine ⟨" on " ++ keyword, Or.inr (Or.inr (Or.inl rfl)), ?_⟩
        have := insert_clause_data bullet (" on " ++ keyword)
        simpa [String.data_append, List.append_assoc] using this
      · right
        refine ⟨" using " ++ keyword, Or.inr (Or.inr (Or.inr rfl)), ?_⟩
        have := insert_clause_data bullet (" using " ++ keyword)
        simpa [String.data_append, List.append_assoc] using this
      · left
        rfl
    · left
      simp only [Bool.not_eq_true] at h1 h2
      simp [h1, h2]

/-- C9 witness: a bullet ending in a period with no trailing whitespace. -/
theorem period_preserving_insertion_witness :
    ("Developed the payment api.").data.getLast? = some '.' ∧
    (insert_keyword_naturally ("Developed the payment api.") ("FastAPI") =
        "Developed the payment api." ∨
     ∃ mid : String,
       (mid = ", leveraging " ++ "FastAPI" ∨ mid = " with " ++ "FastAPI" ∨
        mid = " on " ++ "FastAPI" ∨ mid = " using " ++ "FastAPI") ∧
       (insert_keyword_naturally ("Developed the payment api.") ("FastAPI")).data =
         ("Developed the payment api.").data.dropLast ++ mid.data ++ ['.']) :=
  ⟨by decide, period_preserving_insertion _ _ (by decide)⟩

/-! ## C10: the 160-character insertion gate -/

/-- C10: keyword insertion is attempted only when the rewritten bullet is
strictly shorter than 160 characters.  Bullets shorter than 5 characters are
returned untouched; a bullet whose rewritten text has 160 or more characters
is returned with only the verb rewrite (and the final first-letter
capitalization) applied, and the used-keyword list — hence the set of
inserted keywords — is unchanged. -/
theorem bullet_length_gate (pick : List String → String)
    (bullet : String) (jdK jdS used : List String) :
    (bullet.length < 5 → enhance_bullet pick bullet jdK jdS used = (bullet, used)) ∧
    (5 ≤ bullet.length → 160 ≤ (replace_weak_verb pick bullet).length →
      enhance_bullet pick bullet jdK jdS used =
        (capFirst (replace_weak_verb pick bullet), used)) := by
  constructor
  · intro h
    unfold enhance_bullet
    rw [if_pos (Or.inr h)]
  · intro h5 h160
    have hne : ¬(bullet = "" ∨ bullet.length < 5) := by
      rintro (h | h)
      · have h0 : bullet.length = 0 := by rw [h]; rfl
        omega
      · omega
    have hlen : ¬((replace_weak_verb pick bullet).length < 160) := by omega
    have hne2 : ¬(replace_weak_verb pick bullet = "") := by
      intro h
      have h0 : (replace_weak_verb pick bullet).length = 0 := by rw [h]; rfl
      omega
    simp only [enhance_bullet, if_neg hne, if_neg hlen, if_neg hne2]

/-- C10 witness: a 182-character bullet that no rewrite rule changes. -/
theorem bullet_length_gate_witness :
    5 ≤ ("Developed the core billing engine handling invoice generation, proration, tax calculation, currency conversion, retries, reconciliation and settlement flows for enterprise customers").length ∧
    160 ≤ (replace_weak_verb (fun l => l.headD ("Led")) ("Developed the core billing engine handling invoice generation, proration, tax calculation, currency conversion, retries, reconciliation and settlement flows for enterprise customers")).length ∧
    enhance_bullet (fun l => l.headD ("Led")) ("Developed the core billing engine handling invoice generation, proration, tax calculation, currency conversion, retries, reconciliation and settlement flows for enterprise customers") (["python"]) (["Python", "Docker"]) ([]) =
      (capFirst (replace_weak_verb (fun l => l.headD ("Led")) ("Developed the core billing engine handling invoice generation, proration, tax calculation, currency conversion, retries, reconciliation and settlement flows for enterprise customers")), []) :=
  ⟨by decide, by decide,
   (bullet_length_gate _ _ _ _ _).2 (by decide) (by decide)⟩

/-! ## C7: experience-level detection -/

/-- C7 counterexample: a JD text that contains "5-7 years of experience
required" but whose leftmost year-range match is "1 to 2 years", so the
extracted level is junior, not senior. -/
theorem experience_level_scenario_counterexample :
    pyIn ("5-7 years of experience required")
      ("1 to 2 years preferred. 5-7 years of experience required") = true ∧
    extract_experience_level ("1 to 2 years preferred. 5-7 years of experience required") =
      "junior" ∧
    extract_experience_level ("1 to 2 years preferred. 5-7 years of experience required") ≠
      "senior" :=
  ⟨by decide, by decide, by decide⟩

/-- C7 (amended): the four year patterns are tried in the fixed priority
order range / plus / minimum / at-least, each searched leftmost over the
whole lowercased text, the first matching pattern wins, and the extracted
year count (the range upper bound for the range pattern) is mapped through
the thresholds 2/5/8; the scenario text "5-7 years of experience required"
yields senior whenever the leftmost range match extracts upper bound 7 (for
instance when it is the text's only year mention). -/
theorem experience_level_pattern_priority (text : String) :
    (∀ n m, searchPos (matchRangeAt (pyLower text).data) (pyLower text).data.length =
        some (n, m) → extract_experience_level text = levelOfYears m) ∧
    (searchPos (matchRangeAt (pyLower text).data) (pyLower text).data.length = none →
      ∀ n, searchPos (matchPlusAt (pyLower text).data) (pyLower text).data.length = some n →
        extract_experience_level text = levelOfYears n) ∧
    (searchPos (matchRangeAt (pyLower text).data) (pyLower text).data.length = none →
      searchPos (matchPlusAt (pyLower text).data) (pyLower text).data.length = none →
      ∀ n, searchPos (matchMinAt (pyLower text).data) (pyLower text).data.length = some n →
        extract_experience_level text = levelOfYears n) ∧
    (searchPos (matchRangeAt (pyLower text).data) (pyLower text).data.length = none →
      searchPos (matchPlusAt (pyLower text).data) (pyLower text).data.length = none →
      searchPos (matchMinAt (pyLower text).data) (pyLower text).data.length = none →
      ∀ n, searchPos (matchAtLeastAt (pyLower text).data) (pyLower text).data.length = some n →
        extract_experience_level text = levelOfYears n) ∧
    (∀ y : Nat, levelOfYears y =
      if y ≤ 2 then "junior" else if y ≤ 5 then "mid-level"
      else if y ≤ 8 then "senior" else "staff/principal") := by
  refine ⟨?_, ?_, ?_, ?_, fun y => rfl⟩
  · intro n m h
    simp only [extract_experience_level, h]
  · intro h0 n h
    simp only [extract_experience_level, h0, h]
  · intro h0 h1 n h
    simp only [extract_experience_level, h0, h1, h]
  · intro h0 h1 h2 n h
    simp only [extract_experience_level, h0, h1, h2, h]

/-- C7 witness: the scenario text alone; the leftmost range match is (5, 7)
and the level is senior. -/
theorem experience_level_pattern_priority_witness :
    searchPos (matchRangeAt (pyLower ("We want someone with 5-7 years of experience required")).data)
      (pyLower ("We want someone with 5-7 years of experience required")).data.length = some (5, 7) ∧
    extract_experience_level ("We want someone with 5-7 years of experience required") =
      levelOfYears 7 ∧
    levelOfYears 7 = "senior" :=
  ⟨by decide,
   (experience_level_pattern_priority _).1 5 7 (by decide),
   by decide⟩

/-! ## C6: the short-input guard of the JD analyzer -/

/-- C6: inputs whose trimmed length is under 50 characters (including the
empty string) make `analyze_jd` return the empty mapping; every longer input
produces a full profile.  `analyze_jd` is a total Lean function, so no input
can raise. -/
theorem analyze_jd_short_input_guard (jd_text : String) :
    ((pyStrip jd_text).length < 50 → analyze_jd jd_text = none) ∧
    (50 ≤ (pyStrip jd_text).length → ∃ p : JDProfile, analyze_jd jd_text = some p) := by
  constructor
  · intro h
    unfold analyze_jd
    rw [if_pos (Or.inr h)]
  · intro h
    have hne : ¬(jd_text = "" ∨ (pyStrip jd_text).length < 50) := by
      rintro (h1 | h1)
      · rw [h1] at h
        have h0 : (pyStrip ("")).length = 0 := rfl
        omega
      · omega
    unfold analyze_jd
    rw [if_neg hne]
    exact ⟨_, rfl⟩

/-- C6 witness: the spec scenario string "short" yields the empty mapping; a
91-character JD yields a profile. -/
theorem analyze_jd_short_input_guard_witness :
    ((pyStrip ("short")).length < 50 ∧ analyze_jd ("short") = none) ∧
    (50 ≤ (pyStrip ("We are hiring a Senior Backend Engineer with 5-7 years of experience in Python and Django.")).length ∧
     ∃ p : JDProfile,
       analyze_jd ("We are hiring a Senior Backend Engineer with 5-7 years of experience in Python and Django.") = some p) :=
  ⟨⟨by decide, (analyze_jd_short_input_guard _).1 (by decide)⟩,
   ⟨by decide, (analyze_jd_short_input_guard _).2 (by decide)⟩⟩

/-! ## C1: ATS score bounds and the grade table -/

/-- A category score `matched * W / total` never exceeds its maximum `W`. -/
theorem filter_mul_div_le (l : List String) (p : String → Bool) (W : Nat) (h : l ≠ []) :
    (l.filter p).length * W / l.length ≤ W := by
  have hlen : 0 < l.length := List.length_pos.mpr h
  calc (l.filter p).length * W / l.length
      ≤ l.length * W / l.length :=
        Nat.div_le_div_right (Nat.mul_le_mul_right W (List.length_filter_le p l))
    _ = W := Nat.mul_div_cancel_left W hlen

/-- The technical block scores at most 40. -/
theorem techPartOf_le (l : List String) (txt : String) : (techPartOf l txt).1 ≤ 40 := by
  unfold techPartOf
  split
  · simp
  · rename_i h
    simp only []
    exact filter_mul_div_le l _ 40 (by simpa [List.isEmpty_iff] using h)

/-- The keyword block scores at most 30. -/
theorem kwPartOf_le (l : List String) (txt : String) : (kwPartOf l txt).1 ≤ 30 := by
  unfold kwPartOf
  split
  · simp
  · rename_i h
    simp only []
    exact filter_mul_div_le l _ 30 (by simpa [List.isEmpty_iff] using h)

/-- The soft-skills block scores at most 15. -/
theorem softPartOf_le (l : List String) (txt : String) : (softPartOf l txt).1 ≤ 15 := by
  unfold softPartOf
  split
  · simp
  · rename_i h
    simp only []
    exact filter_mul_div_le l _ 15 (by simpa [List.isEmpty_iff] using h)

/-- The format block scores at most 15. -/
theorem formatScoreOf_le (R : ResumeData) : formatScoreOf R ≤ 15 := by
  unfold formatScoreOf
  have h1 : min ((["experience", "education", "skills", "summary"].countP
      fun sec => R.raw_sections.contains sec) * 3) 12 ≤ 12 := Nat.min_le_right _ _
  split <;> omega

/-- C1: the ATS total always lies in `[15, 100]`, and the grade letter agrees
with the threshold table exactly: A at 85 and above, B on `[70, 85)`, C on
`[55, 70)`, D below 55. -/
theorem ats_total_bounds_and_grade_table (R : ResumeData) (J : JDProfile) :
    15 ≤ (calculate_ats_score R J).total ∧ (calculate_ats_score R J).total ≤ 100 ∧
    ((calculate_ats_score R J).grade = "A" ↔ 85 ≤ (calculate_ats_score R J).total) ∧
    ((calculate_ats_score R J).grade = "B" ↔
      70 ≤ (calculate_ats_score R J).total ∧ (calculate_ats_score R J).total < 85) ∧
    ((calculate_ats_score R J).grade = "C" ↔
      55 ≤ (calculate_ats_score R J).total ∧ (calculate_ats_score R J).total < 70) ∧
    ((calculate_ats_score R J).grade = "D" ↔ (calculate_ats_score R J).total < 55) := by
  have hT := techPartOf_le (J.technical_skills.map pyLower) (pyLower R.full_text)
  have hK := kwPartOf_le (J.keywords.map pyLower) (pyLower R.full_text)
  have hS := softPartOf_le (J.soft_skills.map pyLower) (pyLower R.full_text)
  have hF := formatScoreOf_le R
  unfold calculate_ats_score
  simp only []
  set T := (techPartOf (J.technical_skills.map pyLower) (pyLower R.full_text)).1 with hTdef
  set K := (kwPartOf (J.keywords.map pyLower) (pyLower R.full_text)).1 with hKdef
  set S := (softPartOf (J.soft_skills.map pyLower) (pyLower R.full_text)).1 with hSdef
  set F := formatScoreOf R with hFdef
  have hraw : T + K + S + F ≤ 100 := by omega
  have hsc : max (T + K + S + F) 15 ≤ 100 := Nat.max_le.mpr ⟨hraw, by omega⟩
  have htot : min (max (T + K + S + F) 15) 100 = max (T + K + S + F) 15 :=
    Nat.min_eq_left hsc
  simp only [htot]
  set sc := max (T + K + S + F) 15 with hscdef
  have hge : 15 ≤ sc := Nat.le_max_right _ _
  refine ⟨hge, by omega, ?_, ?_, ?_, ?_⟩ <;>
    split_ifs with a b c <;> simp_all <;> omega

/-! ## C5: the per-category scoring formula -/

/-- C5: every category with a non-empty JD-side list scores
`floor(matched_count / jd_count * category_max)` with maxima 40/30/15, where
a JD item is matched exactly when its lowercased form is a substring of the
lowercased resume full text; a category with an empty JD-side list
contributes no breakdown entry and adds 0 to the raw score, whose assembly
`min (max (tech + kw + soft + format) 15) 100` renormalizes nothing. -/
theorem ats_category_scoring_formula (R : ResumeData) (J : JDProfile) :
    (J.technical_skills ≠ [] →
      ∃ e : CatEntry, (calculate_ats_score R J).breakdown.technical_skills = some e ∧
        e.catMax = 40 ∧
        e.score = (J.technical_skills.map pyLower).countP
            (fun s => pyIn s (pyLower R.full_text)) * 40 / J.technical_skills.length ∧
        (∀ s, s ∈ e.matched ↔
          s ∈ J.technical_skills.map pyLower ∧ s.data <:+: (pyLower R.full_text).data)) ∧
    (J.technical_skills = [] →
      (calculate_ats_score R J).breakdown.technical_skills = none) ∧
    (J.keywords ≠ [] →
      ∃ e : CatEntry, (calculate_ats_score R J).breakdown.keywords = some e ∧
        e.catMax = 30 ∧
        e.score = (J.keywords.map pyLower).countP
            (fun s => pyIn s (pyLower R.full_text)) * 30 / J.keywords.length) ∧
    (J.keywords = [] → (calculate_ats_score R J).breakdown.keywords = none) ∧
    (J.soft_skills ≠ [] →
      ∃ e : SoftEntry, (calculate_ats_score R J).breakdown.soft_skills = some e ∧
        e.catMax = 15 ∧
        e.score = (J.soft_skills.map pyLower).countP
            (fun s => pyIn s (pyLower R.full_text)) * 15 / J.soft_skills.length ∧
        (∀ s, s ∈ e.matched ↔
          s ∈ J.soft_skills.map pyLower ∧ s.data <:+: (pyLower R.full_text).data)) ∧
    (J.soft_skills = [] → (calculate_ats_score R J).breakdown.soft_skills = none) ∧
    (calculate_ats_score R J).total =
      min (max ((techPartOf (J.technical_skills.map pyLower) (pyLower R.full_text)).1 +
        (kwPartOf (J.keywords.map pyLower) (pyLower R.full_text)).1 +
        (softPartOf (J.soft_skills.map pyLower) (pyLower R.full_text)).1 +
        formatScoreOf R) 15) 100 := by
  have hmem : ∀ (l : List String) (s : String),
      s ∈ l.filter (fun x => pyIn x (pyLower R.full_text)) ↔
        s ∈ l ∧ s.data <:+: (pyLower R.full_text).data := by
    intro l s
    rw [List.mem_filter, pyIn_decides_substring]
  refine ⟨?_, ?_, ?_, ?_, ?_, ?_, rfl⟩
  · intro h
    have hne : (J.technical_skills.map pyLower).isEmpty = false := by
      simp [List.isEmpty_iff, h]
    simp only [calculate_ats_score, techPartOf, hne, Bool.false_eq_true, if_false]
    refine ⟨_, rfl, rfl, ?_, ?_⟩
    · rw [List.countP_eq_length_filter, List.length_map]
    · intro s
      exact hmem _ s
  · intro h
    have hne : (J.technical_skills.map pyLower).isEmpty = true := by simp [h]
    simp only [calculate_ats_score, techPartOf, hne, if_true]
  · intro h
    have hne : (J.keywords.map pyLower).isEmpty = false := by
      simp [List.isEmpty_iff, h]
    simp only [calculate_ats_score, kwPartOf, hne, Bool.false_eq_true, if_false]
    refine ⟨_, rfl, rfl, ?_⟩
    rw [List.countP_eq_length_filter, List.length_map]
  · intro h
    have hne : (J.keywords.map pyLower).isEmpty = true := by simp [h]
    simp only [calculate_ats_score, kwPartOf, hne, if_true]
  · intro h
    have hne : (J.soft_skills.map pyLower).isEmpty = false := by
      simp [List.isEmpty_iff, h]
    simp only [calculate_ats_score, softPartOf, hne, Bool.false_eq_true, if_false]
    refine ⟨_, rfl, rfl, ?_, ?_⟩
    · rw [List.countP_eq_length_filter, List.length_map]
    · intro s
      exact hmem _ s
  · intro h
    have hne : (J.soft_skills.map pyLower).isEmpty = true := by simp [h]
    simp only [calculate_ats_score, softPartOf, hne, if_true]

/-- C5 witness: a JD with technical skills and no keywords against a concrete
resume. -/
theorem ats_category_scoring_formula_witness :
    witnessJD.technical_skills ≠ [] ∧
    (∃ e : CatEntry,
      (calculate_ats_score witnessResume witnessJD).breakdown.technical_skills = some e ∧
      e.catMax = 40 ∧
      e.score = (witnessJD.technical_skills.map pyLower).countP
          (fun s => pyIn s (pyLower witnessResume.full_text)) * 40 /
          witnessJD.technical_skills.length ∧
      (∀ s, s ∈ e.matched ↔ s ∈ witnessJD.technical_skills.map pyLower ∧
        s.data <:+: (pyLower witnessResume.full_text).data)) ∧
    witnessJD.keywords = [] ∧
    (calculate_ats_score witnessResume witnessJD).breakdown.keywords = none :=
  ⟨by decide,
   (ats_category_scoring_formula witnessResume witnessJD).1 (by decide),
   by decide,
   (ats_category_scoring_formula witnessResume witnessJD).2.2.2.1 (by decide)⟩

/-! ## C2: the skills-section truthfulness invariant -/

/-- Membership in the case-insensitive dedup implies membership in the
original list. -/
theorem mem_of_mem_dedupeCIAux (seen : List String) (l : List String) (x : String)
    (h : x ∈ dedupeCIAux seen l) : x ∈ l := by
  induction l generalizing seen with
  | nil => simp [dedupeCIAux] at h
  | cons s rest ih =>
    unfold dedupeCIAux at h
    split at h
    · exact List.mem_cons_of_mem _ (ih _ h)
    · rcases List.mem_cons.mp h with h1 | h1
      · exact h1 ▸ List.mem_cons_self _ _
      · exact List.mem_cons_of_mem _ (ih _ h1)

/-- The taxonomy category names are pairwise distinct. -/
theorem skillsDB_keys_nodup : (SKILLS_DB.map Prod.fst).Nodup := by decide

/-- C2: every skill in the optimized output that is not an input skill
belongs to a taxonomy category in which the input already has a skill
(case-insensitively). -/
theorem optimized_skills_truthfulness (pick : List String → String) (tidx : Nat)
    (R : ResumeData) (J : JDProfile) (x : String)
    (hx : x ∈ (optimize_resume pick tidx R J).optimized.skills)
    (hnot : x ∉ R.skills) :
    ∃ cat skills, (cat, skills) ∈ SKILLS_DB ∧
      pyLower x ∈ skills.map pyLower ∧
      ∃ r ∈ R.skills, pyLower r ∈ skills.map pyLower := by
  have hx2 : x ∈ optimize_skills_section R.skills J := hx
  unfold optimize_skills_section dedupeCI at hx2
  have hx3 := mem_of_mem_dedupeCIAux _ _ _ hx2
  rcases List.mem_append.mp hx3 with h | h
  · exact absurd h hnot
  · have hpred := List.of_mem_filter h
    split at hpred
    · exact absurd hpred (by simp)
    · revert hpred
      cases hdom : findSkillDomain x with
      | none => intro hpred; exact absurd hpred (by simp)
      | some d =>
        intro hpred
        obtain ⟨p, hfind, hp1⟩ : ∃ p, SKILLS_DB.find?
            (fun q => (q.2.map pyLower).contains (pyLower x)) = some p ∧ p.1 = d := by
          unfold findSkillDomain at hdom
          exact Option.map_eq_some'.mp hdom
        have hpmem : p ∈ SKILLS_DB := List.mem_of_find?_eq_some hfind
        have hpx : pyLower x ∈ p.2.map pyLower := by
          have := List.find?_some hfind
          exact List.mem_of_elem_eq_true this
        have hd : d ∈ existingDomains R.skills := by
          have : (existingDomains R.skills).contains d = true := hpred
          exact List.mem_of_elem_eq_true this
        obtain ⟨p2, hp2f, hp2d⟩ := List.mem_map.mp hd
        have hp2mem : p2 ∈ SKILLS_DB := List.mem_of_mem_filter hp2f
        have hq2 := List.of_mem_filter hp2f
        obtain ⟨r, hr, hrc⟩ := List.any_eq_true.mp hq2
        have hrx : pyLower r ∈ p2.2.map pyLower := List.mem_of_elem_eq_true hrc
        have hpp2 : p = p2 := by
          have := List.inj_on_of_nodup_map skillsDB_keys_nodup
          exact this hpmem hp2mem (by rw [hp1, hp2d])
        exact ⟨p.1, p.2, by simpa using hpmem, hpx, r, hr, by rw [hpp2]; exact hrx⟩

/-- C2 witness: "Go" is added for a resume holding only "Python" (both are
programming-language skills), and "Go" was not an input skill. -/
theorem optimized_skills_truthfulness_witness :
    ("Go" ∈ (optimize_resume (fun l => l.headD ("Led")) 0 witnessResume witnessJD).optimized.skills) ∧
    ("Go" ∉ witnessResume.skills) ∧
    ∃ cat skills, (cat, skills) ∈ SKILLS_DB ∧
      pyLower ("Go") ∈ skills.map pyLower ∧
      ∃ r ∈ witnessResume.skills, pyLower r ∈ skills.map pyLower :=
  ⟨by decide, by decide,
   optimized_skills_truthfulness (fun l => l.headD ("Led")) 0 witnessResume witnessJD
     ("Go") (by decide) (by decide)⟩

/-! ## C3: insertion uniqueness -/

/-- The step-2 loop appends at most one keyword, and only a keyword not yet
used. -/
theorem tryInsertKeyword_used (e : String) (skills used : List String) :
    (tryInsertKeyword e skills used).2 = used ∨
    ∃ sk, sk ∉ used ∧ (tryInsertKeyword e skills used).2 = used ++ [sk] := by
  induction skills with
  | nil => left; rfl
  | cons sk sks ih =>
    simp only [tryInsertKeyword]
    split_ifs with h1 h2 h3
    · exact ih
    · exact ih
    · right
      exact ⟨sk, fun hm => h1 (List.elem_eq_true_of_mem hm), rfl⟩
    · exact ih

/-- `enhance_bullet` appends at most one keyword to the used list, and only a
fresh one. -/
theorem enhance_bullet_used (pick : List String → String) (bullet : String)
    (jdK jdS used : List String) :
    (enhance_bullet pick bullet jdK jdS used).2 = used ∨
    ∃ sk, sk ∉ used ∧ (enhance_bullet pick bullet jdK jdS used).2 = used ++ [sk] := by
  by_cases h1 : bullet = "" ∨ bullet.length < 5
  · left
    simp only [enhance_bullet, if_pos h1]
  · by_cases h2 : (replace_weak_verb pick bullet).length < 160
    · have heq : (enhance_bullet pick bullet jdK jdS used).2 =
          (tryInsertKeyword (replace_weak_verb pick bullet) jdS used).2 := by
        simp only [enhance_bullet, if_neg h1, if_pos h2]
      rw [heq]
      exact tryInsertKeyword_used _ _ _
    · left
      simp only [enhance_bullet, if_neg h1, if_neg h2]

/-- A single fresh append preserves `Nodup`. -/
theorem nodup_of_used_step {used used' : List String}
    (h : used' = used ∨ ∃ sk, sk ∉ used ∧ used' = used ++ [sk])
    (hn : used.Nodup) : used'.Nodup := by
  rcases h with h | ⟨sk, hsk, h⟩
  · rw [h]; exact hn
  · rw [h, List.nodup_append]
    exact ⟨hn, List.nodup_singleton sk,
      fun a ha hb => hsk ((List.mem_singleton.mp hb) ▸ ha)⟩

/-- The bullet loop preserves `Nodup` of the used-keyword list. -/
theorem enhanceBullets_used_nodup (pick : List String → String) (jdK jdS : List String) :
    ∀ (bs : List String) (used : List String), used.Nodup →
      ((enhanceBullets pick jdK jdS bs used).2).Nodup := by
  intro bs
  induction bs with
  | nil => intro used h; exact h
  | cons b bs ih =>
    intro used h
    simp only [enhanceBullets]
    split_ifs with h1
    · exact ih used h
    · exact ih _ (nodup_of_used_step (enhance_bullet_used pick b jdK jdS used) h)

/-- The entry loop preserves `Nodup` of the used-keyword list. -/
theorem optimizeEntriesAux_used_nodup (pick : List String → String) (jdK jdS : List String) :
    ∀ (entries : List ExpEntry) (used : List String), used.Nodup →
      ((optimizeEntriesAux pick jdK jdS entries used).2).Nodup := by
  intro entries
  induction entries with
  | nil => intro used h; exact h
  | cons e es ih =>
    intro used h
    simp only [optimizeEntriesAux]
    exact ih _ (enhanceBullets_used_nodup pick jdK jdS e.bullets used h)

/-- The diff loop emits only fresh keywords: its added list has pairwise
distinct lowercased forms, none of them in `seen`. -/
theorem kwDiffAux_added_fresh (bl al : String) :
    ∀ (kws seen : List String),
      (((kwDiffAux bl al kws seen).1.map pyLower).Nodup ∧
       ∀ y ∈ (kwDiffAux bl al kws seen).1, pyLower y ∉ seen) := by
  intro kws
  induction kws with
  | nil =>
    intro seen
    exact ⟨List.nodup_nil, by intro y hy; simp [kwDiffAux] at hy⟩
  | cons kw rest ih =>
    intro seen
    simp only [kwDiffAux]
    split_ifs with h1 h2 h3
    · exact ih seen
    · exact ⟨(ih (pyLower kw :: seen)).1,
        fun y hy hmem => (ih (pyLower kw :: seen)).2 y hy (List.mem_cons_of_mem _ hmem)⟩
    · constructor
      · show (List.map pyLower (kw :: (kwDiffAux bl al rest (pyLower kw :: seen)).1)).Nodup
        simp only [List.map_cons, List.nodup_cons]
        refine ⟨?_, (ih (pyLower kw :: seen)).1⟩
        intro hmem
        obtain ⟨y, hy, hyeq⟩ := List.mem_map.mp hmem
        exact (ih (pyLower kw :: seen)).2 y hy (by rw [hyeq]; exact List.mem_cons_self _ _)
      · intro y hy
        rcases List.mem_cons.mp hy with h | h
        · rw [h]
          intro hmem
          exact h1 (Or.inl (List.elem_eq_true_of_mem hmem))
        · intro hmem
          exact (ih (pyLower kw :: seen)).2 y h (List.mem_cons_of_mem _ hmem)
    · exact ⟨(ih (pyLower kw :: seen)).1,
        fun y hy hmem => (ih (pyLower kw :: seen)).2 y hy (List.mem_cons_of_mem _ hmem)⟩

/-- C3: (i) one bullet receives at most one inserted keyword, always one that
was never used before (the used list grows by at most a single fresh
element); (ii) across a whole optimization run the final global used list —
which records exactly the successful insertions in order — has no
duplicates, so no keyword lands in two bullets; (iii) the `added` list of
the keyword diff returned by an optimization run has no case-insensitive
duplicates. -/
theorem keyword_insertion_uniqueness :
    (∀ (pick : List String → String) (bullet : String) (jdK jdS used : List String),
      (enhance_bullet pick bullet jdK jdS used).2 = used ∨
      ∃ sk, sk ∉ used ∧ (enhance_bullet pick bullet jdK jdS used).2 = used ++ [sk]) ∧
    (∀ (pick : List String → String) (jdK jdS : List String) (entries : List ExpEntry),
      ((optimizeEntriesAux pick jdK jdS entries []).2).Nodup) ∧
    (∀ (pick : List String → String) (tidx : Nat) (R : ResumeData) (J : JDProfile),
      (((optimize_resume pick tidx R J).keywords_added).map pyLower).Nodup) := by
  refine ⟨enhance_bullet_used, ?_, ?_⟩
  · intro pick jdK jdS entries
    exact optimizeEntriesAux_used_nodup pick jdK jdS entries [] List.nodup_nil
  · intro pick tidx R J
    have hgen : ∀ (b a : String) (kws : List String),
        (((compute_keyword_diff b a kws).added).map pyLower).Nodup := by
      intro b a kws
      unfold compute_keyword_diff
      have hfresh := (kwDiffAux_added_fresh (pyLower b) (pyLower a) kws []).1
      exact List.Nodup.sublist (List.Sublist.map pyLower (List.take_sublist 15 _)) hfresh
    exact hgen _ _ _

/-! ## C4: bullet-count preservation -/

/-- The bullet loop emits exactly one bullet per non-whitespace input
bullet. -/
theorem enhanceBullets_length (pick : List String → String) (jdK jdS : List String) :
    ∀ (bs used : List String),
      (enhanceBullets pick jdK jdS bs used).1.length =
        (bs.filter fun b => pyStrip b != "").length := by
  intro bs
  induction bs with
  | nil => intro used; rfl
  | cons b bs ih =>
    intro used
    by_cases h : pyStrip b = ""
    · simp [enhanceBullets, h, List.filter_cons, ih]
    · simp [enhanceBullets, h, List.filter_cons, ih]

/-- The `i`-th output bullet is the enhancement of the `i`-th non-whitespace
input bullet, under the used-keyword state reached at that point. -/
theorem enhanceBullets_getD (pick : List String → String) (jdK jdS : List String) :
    ∀ (bs used : List String) (i : Nat),
      i < ((bs.filter fun b => pyStrip b != "").length) →
      ∃ u, (enhanceBullets pick jdK jdS bs used).1.getD i "" =
        (enhance_bullet pick ((bs.filter fun b => pyStrip b != "").getD i "") jdK jdS u).1 := by
  intro bs
  induction bs with
  | nil => intro used i h; simp at h
  | cons b bs ih =>
    intro used i h
    by_cases hb : pyStrip b = ""
    · have hf : (b :: bs).filter (fun b => pyStrip b != "") =
          bs.filter (fun b => pyStrip b != "") := by
        simp [List.filter_cons, hb]
      rw [hf] at h ⊢
      simp only [enhanceBullets, if_pos hb]
      exact ih used i h
    · have hf : (b :: bs).filter (fun b => pyStrip b != "") =
          b :: bs.filter (fun b => pyStrip b != "") := by
        simp [List.filter_cons, hb]
      rw [hf] at h ⊢
      cases i with
      | zero =>
        refine ⟨used, ?_⟩
        simp only [enhanceBullets, if_neg hb, List.getD_cons_zero]
      | succ i =>
        simp only [enhanceBullets, if_neg hb, List.getD_cons_succ]
        exact ih _ i (by simpa using h)

/-- The entry loop emits exactly one entry per input entry. -/
theorem optimizeEntriesAux_length (pick : List String → String) (jdK jdS : List String) :
    ∀ (entries : List ExpEntry) (used : List String),
      (optimizeEntriesAux pick jdK jdS entries used).1.length = entries.length := by
  intro entries
  induction entries with
  | nil => intro used; rfl
  | cons e es ih => intro used; simp [optimizeEntriesAux, ih]

/-- The `j`-th output entry carries the enhanced bullets of the `j`-th input
entry, under the used-keyword state reached at that entry. -/
theorem optimizeEntriesAux_getD (pick : List String → String) (jdK jdS : List String) :
    ∀ (entries : List ExpEntry) (used : List String) (j : Nat), j < entries.length →
      ∃ u, (((optimizeEntriesAux pick jdK jdS entries used).1.getD j ⟨[], []⟩).bullets) =
        (enhanceBullets pick jdK jdS ((entries.getD j ⟨[], []⟩).bullets) u).1 := by
  intro entries
  induction entries with
  | nil => intro used j h; simp at h
  | cons e es ih =>
    intro used j h
    cases j with
    | zero =>
      refine ⟨used, ?_⟩
      simp only [optimizeEntriesAux, List.getD_cons_zero]
    | succ j =>
      simp only [optimizeEntriesAux, List.getD_cons_succ]
      exact ih _ j (by simpa using h)

/-- C4: an optimization run never reorders, merges or invents bullets: each
output entry holds exactly one bullet per non-whitespace input bullet, at the
same ordinal position, each being the enhancement of the corresponding input
bullet; whitespace-only bullets are dropped. -/
theorem experience_bullets_one_to_one :
    (∀ (pick : List String → String) (entries : List ExpEntry) (jd : JDProfile),
      (optimize_experience pick entries jd).length = entries.length) ∧
    (∀ (pick : List String → String) (entries : List ExpEntry) (jd : JDProfile)
        (j : Nat), j < entries.length →
      ∃ u, ((optimize_experience pick entries jd).getD j ⟨[], []⟩).bullets =
        (enhanceBullets pick (jd.keywords.take 10) (jd.technical_skills.take 12)
          ((entries.getD j ⟨[], []⟩).bullets) u).1) ∧
    (∀ (pick : List String → String) (jdK jdS bs used : List String),
      (enhanceBullets pick jdK jdS bs used).1.length =
        (bs.filter fun b => pyStrip b != "").length) ∧
    (∀ (pick : List String → String) (jdK jdS bs used : List String) (i : Nat),
      i < ((bs.filter fun b => pyStrip b != "").length) →
      ∃ u, (enhanceBullets pick jdK jdS bs used).1.getD i "" =
        (enhance_bullet pick ((bs.filter fun b => pyStrip b != "").getD i "") jdK jdS u).1) := by
  refine ⟨?_, ?_, ?_, ?_⟩
  · intro pick entries jd
    exact optimizeEntriesAux_length pick _ _ entries []
  · intro pick entries jd j hj
    exact optimizeEntriesAux_getD pick _ _ entries [] j hj
  · intro pick jdK jdS bs used
    exact enhanceBullets_length pick jdK jdS bs used
  · intro pick jdK jdS bs used i hi
    exact enhanceBullets_getD pick jdK jdS bs used i hi

/-- C4 witness: the concrete three-bullet entry (one bullet whitespace-only);
output position 1 corresponds to input bullet "Built api in Python.". -/
theorem experience_bullets_one_to_one_witness :
    ((["Led team of 5 engineers", "  ", "Built api in Python."].filter
        fun b => pyStrip b != "") =
      ["Led team of 5 engineers", "Built api in Python."]) ∧
    (1 < (["Led team of 5 engineers", "  ", "Built api in Python."].filter
        fun b => pyStrip b != "").length) ∧
    (∃ u, (enhanceBullets (fun l => l.headD ("Led")) (["python"]) (["Python", "Go"])
        (["Led team of 5 engineers", "  ", "Built api in Python."]) []).1.getD 1 "" =
      (enhance_bullet (fun l => l.headD ("Led"))
        ((["Led team of 5 engineers", "  ", "Built api in Python."].filter
          fun b => pyStrip b != "").getD 1 "") (["python"]) (["Python", "Go"]) u).1) ∧
    (optimize_experience (fun l => l.headD ("Led")) witnessResume.experience witnessJD).length =
      witnessResume.experience.length :=
  ⟨by decide, by decide,
   experience_bullets_one_to_one.2.2.2 (fun l => l.headD ("Led")) (["python"]) (["Python", "Go"])
     (["Led team of 5 engineers", "  ", "Built api in Python."]) [] 1 (by decide),
   experience_bullets_one_to_one.1 (fun l => l.headD ("Led")) witnessResume.experience witnessJD⟩

/-- C1 witness: the bounds and grade table at a concrete resume and JD
profile. -/
theorem ats_total_bounds_and_grade_table_witness :
    15 ≤ (calculate_ats_score witnessResume witnessJD).total ∧
    (calculate_ats_score witnessResume witnessJD).total ≤ 100 ∧
    ((calculate_ats_score witnessResume witnessJD).grade = "A" ↔
      85 ≤ (calculate_ats_score witnessResume witnessJD).total) ∧
    ((calculate_ats_score witnessResume witnessJD).grade = "B" ↔
      70 ≤ (calculate_ats_score witnessResume witnessJD).total ∧
        (calculate_ats_score witnessResume witnessJD).total < 85) ∧
    ((calculate_ats_score witnessResume witnessJD).grade = "C" ↔
      55 ≤ (calculate_ats_score witnessResume witnessJD).total ∧
        (calculate_ats_score witnessResume witnessJD).total < 70) ∧
    ((calculate_ats_score witnessResume witnessJD).grade = "D" ↔
      (calculate_ats_score witnessResume witnessJD).total < 55) :=
  ats_total_bounds_and_grade_table witnessResume witnessJD
